import Mathlib

/-!
# BNO055 serial driver and secondary IMU task

A shallow embedding of `src/main/drivers/accgyro/accgyro_bno055_serial.c` and of
the yaw wrap and the calibration tick of `src/main/flight/secondary_imu.c`, with
the properties of the receive state machine, the command encoders and the task
proved over it.

Conventions of the embedding:

* `uint8_t` and `uint16_t` values are `Nat` with an explicit `% 256` where the C
  code truncates or wraps; `timeMs_t` (`uint32_t`) is `Nat` with the
  subtraction taken modulo `2 ^ 32`.
* The file-scope statics of the driver and the global `secondaryImuState` form
  one record, `Bno055`, passed through every function.
* `receiveBuffer` is a list of cells. A write at an index outside the list
  leaves the cells as they are, whereas in C it lands outside the array and its
  effect is undefined: the embedding is exact as long as every store is inside
  the 16 cells. Every call reports the index it wrote at, so that bounds can be
  stated, and the theorems about what the handler does are stated for stores
  inside the buffer.
* `millis()` is read once per call of the receive handler: the handler takes
  the current time as an argument.
* `secondaryImuProcess` is defined outside the two source files: the handler
  takes it as a function on `secondaryImuState` and counts the calls.
* `serialWrite` is external: the encoders return the bytes passed to it, and
  the logged variants of the request functions also record the expected data
  type in force at each call.
-/

namespace Bno055Serial

/-! ## Constants and enumerations -/

/-- `#define BNO055_FRAME_MAX_TIME_MS 10`. -/
def BNO055_FRAME_MAX_TIME_MS : Nat := 10

/-- Number of cells of `static uint8_t receiveBuffer[16]`. -/
def RECEIVE_BUFFER_SIZE : Nat := 16

/-- `bno055ReceiveState_e`. -/
inductive bno055ReceiveState_e where
  | BNO055_RECEIVE_IDLE
  | BNO055_RECEIVE_HEADER
  | BNO055_RECEIVE_LENGTH
  | BNO055_RECEIVE_PAYLOAD
  | BNO055_RECEIVE_ACK
  deriving DecidableEq, Repr

/-- `bno055FrameType_e`. -/
inductive bno055FrameType_e where
  | BNO055_FRAME_ACK
  | BNO055_FRAME_DATA
  deriving DecidableEq, Repr

/-- `bno055DataType_e`. -/
inductive bno055DataType_e where
  | BNO055_DATA_TYPE_NONE
  | BNO055_DATA_TYPE_EULER
  | BNO055_DATA_TYPE_CALIBRATION_STATS
  deriving DecidableEq, Repr

open bno055ReceiveState_e bno055FrameType_e bno055DataType_e

/-! ## Shared state -/

/-- Modelled from the spec: `bno055CalibStat_t` is declared in a header that is
not among the sources; the spec describes it as four independent 2-bit scores
(magnetometer, accelerometer, gyroscope, system), and the handler assigns the
fields `mag`, `acc`, `gyr` and `sys`. -/
structure bno055CalibStat_t where
  sys : Nat
  gyr : Nat
  acc : Nat
  mag : Nat
  deriving DecidableEq, Repr

/-- Modelled from the spec: `secondaryImuState_t` is declared in a header that
is not among the sources. The handler writes the three slots
`eulerAngles.raw[0..2]` (fixed-point integers, which the task reads as `x`, `y`
and `z`) and `calibrationStatus`; the task writes `active`. -/
structure secondaryImuState_t where
  raw0 : Int
  raw1 : Int
  raw2 : Int
  calibrationStatus : bno055CalibStat_t
  active : Bool
  deriving DecidableEq, Repr

/-- The file-scope statics of the driver together with `secondaryImuState`. -/
structure Bno055 where
  receiveBuffer : List Nat
  bno055ProtocolState : bno055ReceiveState_e
  bno055FrameType : bno055FrameType_e
  bno055FrameLength : Nat
  bno055FrameIndex : Nat
  bno055FrameStartAtMs : Nat
  bno055DataType : bno055DataType_e
  secondaryImuState : secondaryImuState_t
  deriving DecidableEq, Repr

/-- The statics as the C initialisers leave them: idle, everything else zero
(`BNO055_FRAME_ACK` and `BNO055_DATA_TYPE_NONE` are the zero enumerators). -/
def initialState : Bno055 :=
  { receiveBuffer := List.replicate 16 0
    bno055ProtocolState := BNO055_RECEIVE_IDLE
    bno055FrameType := BNO055_FRAME_ACK
    bno055FrameLength := 0
    bno055FrameIndex := 0
    bno055FrameStartAtMs := 0
    bno055DataType := BNO055_DATA_TYPE_NONE
    secondaryImuState :=
      { raw0 := 0, raw1 := 0, raw2 := 0
        calibrationStatus := { sys := 0, gyr := 0, acc := 0, mag := 0 }
        active := false } }

/-! ## Arithmetic of the decoder -/

/-- The cast `(int16_t) n` of a non-negative `int`: reduce modulo `2 ^ 16` and
read the result as two's complement. -/
def toInt16 (n : Nat) : Int :=
  if n % 65536 < 32768 then ((n % 65536 : Nat) : Int) else ((n % 65536 : Nat) : Int) - 65536

/-- The expression `(int16_t)((hi << 8) | lo)` on two buffer cells. -/
def int16OfBytes (hi lo : Nat) : Int :=
  toInt16 ((hi <<< 8) ||| lo)

/-- Numerator of the single-precision constant `1.6f`, which is
`13421773 / 2 ^ 23`. -/
def F32_1_6_NUM : Nat := 13421773

/-- Round the quotient `a / b` of two naturals to the nearest integer, ties to
even (the IEEE 754 default rounding). -/
def roundNearestEven (a b : Nat) : Nat :=
  let q := a / b
  let r := a % b
  if 2 * r < b then q
  else if b < 2 * r then q + 1
  else if q % 2 = 0 then q else q + 1

/-- The binary logarithm of `k`, rounded down, by halving at most `fuel` times
(`0` for `k < 2`); `fuel = 32` covers every `k < 2 ^ 32`. -/
def floorLog2 : Nat → Nat → Nat
  | 0, _ => 0
  | fuel + 1, k => if 2 ≤ k then floorLog2 fuel (k / 2) + 1 else 0

/-- The magnitude of `(int16_t)(n / 1.6f)` for `1 <= n <= 32768`: the exact
quotient `n * 2 ^ 23 / 13421773` lies in `[2 ^ (e - 1), 2 ^ e)`, is rounded to a
24-bit significand `m` (value `m / 2 ^ (24 - e)`), and the conversion to an
integer drops the fraction. -/
def divF32Magnitude (n : Nat) : Nat :=
  let e := floorLog2 32 (n * 2 ^ 24 / F32_1_6_NUM)
  let m := roundNearestEven (n * 2 ^ (47 - e)) F32_1_6_NUM
  m / 2 ^ (24 - e)

/-- The assignment `raw = v / 1.6f` for a 16-bit `v`: `v` is converted to
`float` exactly, divided in single precision, and the quotient is converted to
the integer slot by truncation toward zero. -/
def divBy1_6f (v : Int) : Int :=
  if v = 0 then 0
  else if 0 < v then (divF32Magnitude v.natAbs : Int)
  else -(divF32Magnitude v.natAbs : Int)

/-- The assignment `raw = v / -1.6f`: the quotient of `divBy1_6f` with the
opposite sign (rounding to nearest and truncation are both symmetric). -/
def divByNeg1_6f (v : Int) : Int :=
  -(divBy1_6f v)

/-- The unsigned 32-bit difference `millis() - bno055FrameStartAtMs`. -/
def elapsedMs (now start : Nat) : Nat :=
  (now % 4294967296 + (4294967296 - start % 4294967296)) % 4294967296

/-! ## The receive handler -/

/-- What one call of the receive handler returns: the new state, the index of
`receiveBuffer` it wrote at (if it wrote), and how many times it called
`secondaryImuProcess`. -/
structure RxResult where
  st : Bno055
  wrote : Option Nat
  processCalls : Nat
  deriving DecidableEq, Repr

/-- `bno055SerialDataReceive(c, data)`, with `millis()` given as `now`. -/
def bno055SerialDataReceive
    (secondaryImuProcess : secondaryImuState_t → secondaryImuState_t)
    (now : Nat) (c : Nat) (s0 : Bno055) : RxResult :=
  let incoming := c % 256
  -- Failsafe for stuck frames
  let s : Bno055 :=
    if s0.bno055ProtocolState ≠ BNO055_RECEIVE_IDLE ∧
        elapsedMs now s0.bno055FrameStartAtMs > BNO055_FRAME_MAX_TIME_MS then
      { s0 with bno055ProtocolState := BNO055_RECEIVE_IDLE }
    else s0
  if s.bno055ProtocolState = BNO055_RECEIVE_IDLE ∧ incoming = 0xEE then
    { st := { s with bno055FrameStartAtMs := now % 4294967296
                     bno055ProtocolState := BNO055_RECEIVE_HEADER
                     bno055FrameType := BNO055_FRAME_ACK }
      wrote := none, processCalls := 0 }
  else if s.bno055ProtocolState = BNO055_RECEIVE_IDLE ∧ incoming = 0xBB then
    { st := { s with bno055FrameStartAtMs := now % 4294967296
                     bno055ProtocolState := BNO055_RECEIVE_HEADER
                     bno055FrameType := BNO055_FRAME_DATA }
      wrote := none, processCalls := 0 }
  else if s.bno055ProtocolState = BNO055_RECEIVE_HEADER ∧
      s.bno055FrameType = BNO055_FRAME_ACK then
    { st := { s with receiveBuffer := s.receiveBuffer.set 0 incoming
                     bno055ProtocolState := BNO055_RECEIVE_IDLE }
      wrote := some 0, processCalls := 0 }
  else if s.bno055ProtocolState = BNO055_RECEIVE_HEADER ∧
      s.bno055FrameType = BNO055_FRAME_DATA then
    { st := { s with bno055FrameLength := incoming
                     bno055FrameIndex := 0
                     bno055ProtocolState := BNO055_RECEIVE_LENGTH }
      wrote := none, processCalls := 0 }
  else if s.bno055ProtocolState = BNO055_RECEIVE_LENGTH then
    let buf := s.receiveBuffer.set s.bno055FrameIndex incoming
    let idx := (s.bno055FrameIndex + 1) % 256
    if idx = s.bno055FrameLength then
      if s.bno055DataType = BNO055_DATA_TYPE_EULER then
        let imu : secondaryImuState_t :=
          { s.secondaryImuState with
            raw0 := divBy1_6f (int16OfBytes (buf.getD 3 0) (buf.getD 2 0))
            raw1 := divByNeg1_6f (int16OfBytes (buf.getD 5 0) (buf.getD 4 0))
            raw2 := divBy1_6f (int16OfBytes (buf.getD 1 0) (buf.getD 0 0)) }
        { st := { s with receiveBuffer := buf
                         bno055FrameIndex := idx
                         bno055ProtocolState := BNO055_RECEIVE_IDLE
                         secondaryImuState := secondaryImuProcess imu
                         bno055DataType := BNO055_DATA_TYPE_NONE }
          wrote := some s.bno055FrameIndex, processCalls := 1 }
      else if s.bno055DataType = BNO055_DATA_TYPE_CALIBRATION_STATS then
        let cal : bno055CalibStat_t :=
          { s.secondaryImuState.calibrationStatus with
            mag := buf.getD 0 0 &&& 3
            acc := (buf.getD 0 0 >>> 2) &&& 3
            gyr := (buf.getD 0 0 >>> 4) &&& 3
            sys := (buf.getD 0 0 >>> 6) &&& 3 }
        { st := { s with receiveBuffer := buf
                         bno055FrameIndex := idx
                         bno055ProtocolState := BNO055_RECEIVE_IDLE
                         secondaryImuState :=
                           { s.secondaryImuState with calibrationStatus := cal }
                         bno055DataType := BNO055_DATA_TYPE_NONE }
          wrote := some s.bno055FrameIndex, processCalls := 0 }
      else
        { st := { s with receiveBuffer := buf
                         bno055FrameIndex := idx
                         bno055ProtocolState := BNO055_RECEIVE_IDLE
                         bno055DataType := BNO055_DATA_TYPE_NONE }
          wrote := some s.bno055FrameIndex, processCalls := 0 }
    else
      { st := { s with receiveBuffer := buf, bno055FrameIndex := idx }
        wrote := some s.bno055FrameIndex, processCalls := 0 }
  else
    { st := s, wrote := none, processCalls := 0 }

/-- The handler run over a sequence of received bytes: the final state, the
indices of `receiveBuffer` written at, in order, and the total number of calls
of `secondaryImuProcess`. -/
structure RxTrace where
  st : Bno055
  writes : List Nat
  processCalls : Nat
  deriving DecidableEq, Repr

/-- Call the receive handler once for each pair `(c, now)` of a received byte
and the value of `millis()` at its arrival, in order. -/
def feed (secondaryImuProcess : secondaryImuState_t → secondaryImuState_t)
    (s : Bno055) : List (Nat × Nat) → RxTrace
  | [] => { st := s, writes := [], processCalls := 0 }
  | (c, now) :: rest =>
    let r := bno055SerialDataReceive secondaryImuProcess now c s
    let t := feed secondaryImuProcess r.st rest
    { st := t.st
      writes := r.wrote.toList ++ t.writes
      processCalls := r.processCalls + t.processCalls }

/-! ## Command encoders and initialisation -/

/-- `bno055SerialWrite(reg, data)`: the new state and the bytes passed to
`serialWrite`, in order. -/
def bno055SerialWrite (reg data : Nat) (s : Bno055) : Bno055 × List Nat :=
  ({ s with bno055ProtocolState := BNO055_RECEIVE_IDLE },
   [0xAA, 0x00, reg % 256, 1, data % 256])

/-- `bno055SerialRead(reg, len)`: the new state and the bytes passed to
`serialWrite`, in order. -/
def bno055SerialRead (reg len : Nat) (s : Bno055) : Bno055 × List Nat :=
  ({ s with bno055ProtocolState := BNO055_RECEIVE_IDLE },
   [0xAA, 0x01, reg % 256, len % 256])

/-- The register constants of `drivers/accgyro/accgyro_bno055.h`, a header that
is not among the sources: they are taken as parameters. -/
structure bno055Registers where
  BNO055_ADDR_PWR_MODE : Nat
  BNO055_ADDR_OPR_MODE : Nat
  BNO055_ADDR_CALIB_STAT : Nat
  BNO055_ADDR_EUL_YAW_LSB : Nat
  BNO055_PWR_MODE_NORMAL : Nat
  BNO055_OPR_MODE_NDOF : Nat
  deriving DecidableEq, Repr

/-- `bno055SerialInit`. `portConfig` and `portOpened` say whether
`findSerialPortConfig` and `openSerialPort` return a port. The serial
subsystem calls the receive handler while the function waits: `rxIdent`,
`rxPwr` and `rxOpr` are the bytes (with their arrival times) that come in
during `delay(5)` after the identity read and during the `delay(25)` after each
of the two writes. The result is the return value, the final state and the
bytes transmitted. -/
def bno055SerialInit
    (secondaryImuProcess : secondaryImuState_t → secondaryImuState_t)
    (k : bno055Registers) (portConfig portOpened : Bool)
    (rxIdent rxPwr rxOpr : List (Nat × Nat)) (s : Bno055) :
    Bool × Bno055 × List Nat :=
  if !portConfig then (false, s, [])
  else if !portOpened then (false, s, [])
  else
    -- Read ChipID
    let rd := bno055SerialRead 0x00 1 s
    let s1 := (feed secondaryImuProcess rd.1 rxIdent).st
    -- Check ident
    if s1.bno055FrameType ≠ BNO055_FRAME_DATA ∨ s1.receiveBuffer.getD 0 0 ≠ 0xA0 ∨
        s1.bno055ProtocolState ≠ BNO055_RECEIVE_IDLE then
      (false, s1, rd.2)
    else
      let w1 := bno055SerialWrite k.BNO055_ADDR_PWR_MODE k.BNO055_PWR_MODE_NORMAL s1
      let s2 := (feed secondaryImuProcess w1.1 rxPwr).st
      let w2 := bno055SerialWrite k.BNO055_ADDR_OPR_MODE k.BNO055_OPR_MODE_NDOF s2
      let s3 := (feed secondaryImuProcess w2.1 rxOpr).st
      (true, s3, rd.2 ++ w1.2 ++ w2.2)

/-- `bno055SerialFetchEulerAngles()`. -/
def bno055SerialFetchEulerAngles (k : bno055Registers) (s : Bno055) : Bno055 × List Nat :=
  bno055SerialRead k.BNO055_ADDR_EUL_YAW_LSB 6
    { s with bno055DataType := BNO055_DATA_TYPE_EULER }

/-- `bno055SerialGetCalibStat()`. -/
def bno055SerialGetCalibStat (k : bno055Registers) (s : Bno055) : Bno055 × List Nat :=
  bno055SerialRead k.BNO055_ADDR_CALIB_STAT 1
    { s with bno055DataType := BNO055_DATA_TYPE_CALIBRATION_STATS }

/-! ## The request functions with a transmit log -/

/-- One call of `serialWrite`: the byte passed and the value that
`bno055DataType` has at the moment of the call. -/
structure TxEvent where
  byte : Nat
  expected : bno055DataType_e
  deriving DecidableEq, Repr

/-- `serialWrite(bno055SerialPort, b)` as the driver sees it: the statics are
left alone and the call is appended to the log of transmitted bytes, with the
expected data type in force when the byte is handed over. -/
def serialWrite (b : Nat) (w : Bno055 × List TxEvent) : Bno055 × List TxEvent :=
  (w.1, w.2 ++ [{ byte := b % 256, expected := w.1.bno055DataType }])

/-- `bno055SerialRead(reg, len)` statement by statement, on the statics and the
log of transmitted bytes. -/
def bno055SerialReadLogged (reg len : Nat) (w : Bno055 × List TxEvent) :
    Bno055 × List TxEvent :=
  let w0 : Bno055 × List TxEvent :=
    ({ w.1 with bno055ProtocolState := BNO055_RECEIVE_IDLE }, w.2)
  let w1 := serialWrite 0xAA w0
  let w2 := serialWrite 0x01 w1
  let w3 := serialWrite (reg % 256) w2
  serialWrite (len % 256) w3

/-- `bno055SerialFetchEulerAngles()` statement by statement, on the statics and
the log of transmitted bytes. -/
def bno055SerialFetchEulerAnglesLogged (k : bno055Registers)
    (w : Bno055 × List TxEvent) : Bno055 × List TxEvent :=
  let w0 : Bno055 × List TxEvent :=
    ({ w.1 with bno055DataType := BNO055_DATA_TYPE_EULER }, w.2)
  bno055SerialReadLogged k.BNO055_ADDR_EUL_YAW_LSB 6 w0

/-- `bno055SerialGetCalibStat()` statement by statement, on the statics and the
log of transmitted bytes. -/
def bno055SerialGetCalibStatLogged (k : bno055Registers)
    (w : Bno055 × List TxEvent) : Bno055 × List TxEvent :=
  let w0 : Bno055 × List TxEvent :=
    ({ w.1 with bno055DataType := BNO055_DATA_TYPE_CALIBRATION_STATS }, w.2)
  bno055SerialReadLogged k.BNO055_ADDR_CALIB_STAT 1 w0

/-! ## The secondary IMU task -/

/-- The yaw published by `taskSecondaryImu`: `sum % 3600`, where `sum` is the
`int32_t` value of `rotated.z + yawDeciDegrees` and `%` is the C remainder
(the quotient is truncated toward zero, so the remainder has the sign of
`sum`). -/
def publishedYaw (sum : Int) : Int :=
  Int.tmod sum 3600

/-- The two function-scope statics of `taskSecondaryImu`, `secondaryImuChecked`
and `tick`, and the flag `secondaryImuState.active` that the task sets on its
first invocation. -/
structure TaskState where
  secondaryImuChecked : Bool
  active : Bool
  tick : Nat
  deriving DecidableEq, Repr

/-- The task statics as the C initialisers leave them. -/
def taskInitialState : TaskState :=
  { secondaryImuChecked := false, active := false, tick := 0 }

/-- The control flow of one invocation of `taskSecondaryImu`: the first
invocation stores the result of `bno055Init()` in `active`; an active
invocation increments the `uint8_t` counter `tick` and, when it reaches 10,
requests the calibration status and resets the counter. The result is the new
statics and whether this invocation requested the calibration status. The
angle arithmetic of the active branch does not touch these variables (its yaw
wrap is `publishedYaw`). -/
def taskSecondaryImu (bno055InitResult : Bool) (t : TaskState) : TaskState × Bool :=
  let t1 : TaskState :=
    if !t.secondaryImuChecked then
      { t with active := bno055InitResult, secondaryImuChecked := true }
    else t
  if t1.active then
    let tick := (t1.tick + 1) % 256
    if tick = 10 then ({ t1 with tick := 0 }, true)
    else ({ t1 with tick := tick }, false)
  else (t1, false)

/-- Invoke the task `n` times in a row: the final statics and, for each
invocation in order, whether it requested the calibration status. -/
def taskRun (bno055InitResult : Bool) (t : TaskState) : Nat → TaskState × List Bool
  | 0 => (t, [])
  | n + 1 =>
    let r := taskSecondaryImu bno055InitResult t
    let rest := taskRun bno055InitResult r.1 n
    (rest.1, r.2 :: rest.2)

/-! ## Auxiliary lemmas -/

/-- The halving count `floorLog2` is the exponent of the power of two at or
below its argument, when the fuel exceeds that exponent. -/
theorem floorLog2_spec (fuel e k : Nat) (hf : e < fuel) (h1 : 2 ^ e ≤ k) (h2 : k < 2 ^ (e + 1)) :
    floorLog2 fuel k = e := by
  induction fuel generalizing e k with
  | zero => omega
  | succ f ih =>
    cases e with
    | zero =>
      have : ¬ 2 ≤ k := by simpa using h2
      simp [floorLog2, this]
    | succ e =>
      have hk : 2 ≤ k := by
        have : 2 ^ (e + 1) = 2 * 2 ^ e := by ring
        have : 0 < 2 ^ e := by positivity
        omega
      simp only [floorLog2, hk, if_true]
      congr 1
      apply ih e (k / 2) (by omega)
      · have : 2 ^ (e + 1) = 2 * 2 ^ e := by ring
        omega
      · have : 2 ^ (e + 1 + 1) = 2 * 2 ^ (e + 1) := by ring
        omega

/-- In every binade that a 16-bit magnitude can reach, rounding the quotient by
`1.6f` to 24 bits and dropping the fraction gives the exact `n * 5 / 8`. -/
theorem magnitude_of_exponent (e n : Nat) (he : e ≤ 15)
    (h1 : 2 ^ e ≤ n * 2 ^ 24 / F32_1_6_NUM) (h2 : n * 2 ^ 24 / F32_1_6_NUM < 2 ^ (e + 1)) :
    roundNearestEven (n * 2 ^ (47 - e)) F32_1_6_NUM / 2 ^ (24 - e) = n * 5 / 8 := by
  simp only [roundNearestEven, F32_1_6_NUM] at *
  interval_cases e <;> norm_num at h1 h2 ⊢ <;> split_ifs <;> omega

/-- The single-precision quotient of a 16-bit magnitude by `1.6f`, converted to
an integer, is the exact quotient by 1.6 rounded down. -/
theorem divF32Magnitude_eq (n : Nat) (h1 : 1 ≤ n) (h2 : n ≤ 32768) :
    divF32Magnitude n = n * 5 / 8 := by
  have hk1 : 1 ≤ n * 2 ^ 24 / F32_1_6_NUM := by
    simp only [F32_1_6_NUM]; omega
  have hk2 : n * 2 ^ 24 / F32_1_6_NUM < 2 ^ 16 := by
    simp only [F32_1_6_NUM]; omega
  obtain ⟨e, he, hlo, hhi⟩ : ∃ e, e ≤ 15 ∧ 2 ^ e ≤ n * 2 ^ 24 / F32_1_6_NUM ∧
      n * 2 ^ 24 / F32_1_6_NUM < 2 ^ (e + 1) := by
    refine ⟨Nat.log 2 (n * 2 ^ 24 / F32_1_6_NUM), ?_, ?_, ?_⟩
    · have := Nat.log_lt_of_lt_pow (by omega) hk2
      omega
    · exact Nat.pow_log_le_self 2 (by omega)
    · exact Nat.lt_pow_succ_log_self (by norm_num) _
  have hlog : floorLog2 32 (n * 2 ^ 24 / F32_1_6_NUM) = e :=
    floorLog2_spec 32 e _ (by omega) hlo hhi
  simp only [divF32Magnitude, hlog]
  exact magnitude_of_exponent e n he hlo hhi

/-- For every 16-bit `v`, the assignment `raw = v / 1.6f` stores the exact
quotient of `v` by 1.6 truncated toward zero. -/
theorem divBy1_6f_eq (v : Int) (h1 : -32768 ≤ v) (h2 : v ≤ 32767) :
    divBy1_6f v = Int.tdiv (v * 5) 8 := by
  unfold divBy1_6f
  split_ifs with h0 hpos
  · subst h0; rfl
  · rw [divF32Magnitude_eq _ (by omega) (by omega)]
    have : v = (v.natAbs : Int) := by omega
    rw [this]
    simp only [Int.natAbs_ofNat]
    norm_cast
  · rw [divF32Magnitude_eq _ (by omega) (by omega)]
    have : v = -(v.natAbs : Int) := by omega
    rw [this]
    simp only [Int.natAbs_neg, Int.natAbs_ofNat, Int.neg_mul, Int.neg_tdiv]
    norm_cast

/-- The cast to `int16_t` yields a 16-bit value. -/
theorem toInt16_bounds (n : Nat) : -32768 ≤ toInt16 n ∧ toInt16 n ≤ 32767 := by
  unfold toInt16; split_ifs <;> omega

/-- The elapsed time does not change when the start time is reduced modulo
`2 ^ 32`, as it is when stored. -/
theorem elapsedMs_mod (now start : Nat) :
    elapsedMs now (start % 4294967296) = elapsedMs now start := by
  simp [elapsedMs]

/-- Reading a cell after a write: the written value at the written index when
it is inside the list, the old content otherwise. -/
theorem getD_set (l : List Nat) (i j v d : Nat) :
    (l.set i v).getD j d = if i = j ∧ i < l.length then v else l.getD j d := by
  simp only [List.getD_eq_getElem?_getD, List.getElem?_set]
  by_cases hij : i = j
  · subst hij
    by_cases hl : i < l.length
    · simp [hl]
    · simp [hl, List.getElem?_eq_none (Nat.le_of_not_lt hl)]
  · simp [hij]

/-! ## The receive buffer bound -/

/-- C1. The bound on write indices fails on the code: from the initial idle
state, the header `0xBB`, the length byte `17` and seventeen payload bytes make
the handler write `receiveBuffer` at the indices `0, 1, ..., 16`, and the last of
them is not below the capacity of 16. -/
theorem receive_writes_past_buffer_end :
    (feed id initialState ((0xBB, 0) :: (17, 0) :: List.replicate 17 (0x55, 0))).writes
        = List.range 17 ∧
      ¬ ∀ i ∈ (feed id initialState
          ((0xBB, 0) :: (17, 0) :: List.replicate 17 (0x55, 0))).writes,
        i < RECEIVE_BUFFER_SIZE := by
  decide

/-! ## Decoding of Euler angles -/

/-- C2, as stated, fails: with expected type Euler, the frame
`0xBB, 6, 0x00, 0x10, 0, 0, 0, 0` (so `b0 = 0x00`, `b1 = 0x10`) leaves slot 0
(roll, read as `x`) at 0 and slot 2 (yaw, read as `z`) at 2560, while the claim
gives roll `int16(b1<<8|b0)/16 = 256` and yaw `int16(b3<<8|b2)/16 = 0`. -/
theorem euler_decode_as_stated_fails :
    (feed id { initialState with bno055DataType := BNO055_DATA_TYPE_EULER }
        [(0xBB, 0), (6, 0), (0x00, 0), (0x10, 0), (0, 0), (0, 0), (0, 0), (0, 0)]
      ).st.secondaryImuState.raw0 = 0 ∧
    (feed id { initialState with bno055DataType := BNO055_DATA_TYPE_EULER }
        [(0xBB, 0), (6, 0), (0x00, 0), (0x10, 0), (0, 0), (0, 0), (0, 0), (0, 0)]
      ).st.secondaryImuState.raw0 ≠ int16OfBytes 0x10 0x00 / 16 ∧
    (feed id { initialState with bno055DataType := BNO055_DATA_TYPE_EULER }
        [(0xBB, 0), (6, 0), (0x00, 0), (0x10, 0), (0, 0), (0, 0), (0, 0), (0, 0)]
      ).st.secondaryImuState.raw2 = 2560 ∧
    (feed id { initialState with bno055DataType := BNO055_DATA_TYPE_EULER }
        [(0xBB, 0), (6, 0), (0x00, 0), (0x10, 0), (0, 0), (0, 0), (0, 0), (0, 0)]
      ).st.secondaryImuState.raw2 ≠ int16OfBytes 0x00 0x00 / 16 := by
  decide

/-- C2, amended. For all bytes `b0..b5`, the frame `0xBB, 6, b0, ..., b5` fed
from idle without timeout, with expected type Euler, stores in slot 0 (roll,
read as `x`) the 16-bit value with high byte `b3` and low byte `b2` divided by
1.6, in slot 1 (pitch, `y`) the one with high byte `b5` and low byte `b4` divided
by -1.6, and in slot 2 (yaw, `z`) the one with high byte `b1` and low byte `b0`
divided by 1.6, each truncated toward zero (tenths of a degree); the state so
written is handed to `secondaryImuProcess`, which is called exactly once. -/
theorem euler_frame_decodes
    (proc : secondaryImuState_t → secondaryImuState_t) (s : Bno055)
    (b0 b1 b2 b3 b4 b5 t0 t1 t2 t3 t4 t5 t6 t7 : Nat)
    (hidle : s.bno055ProtocolState = BNO055_RECEIVE_IDLE)
    (htype : s.bno055DataType = BNO055_DATA_TYPE_EULER)
    (hbuf : s.receiveBuffer.length = RECEIVE_BUFFER_SIZE)
    (hb0 : b0 < 256) (hb1 : b1 < 256) (hb2 : b2 < 256)
    (hb3 : b3 < 256) (hb4 : b4 < 256) (hb5 : b5 < 256)
    (h1 : elapsedMs t1 t0 ≤ BNO055_FRAME_MAX_TIME_MS)
    (h2 : elapsedMs t2 t0 ≤ BNO055_FRAME_MAX_TIME_MS)
    (h3 : elapsedMs t3 t0 ≤ BNO055_FRAME_MAX_TIME_MS)
    (h4 : elapsedMs t4 t0 ≤ BNO055_FRAME_MAX_TIME_MS)
    (h5 : elapsedMs t5 t0 ≤ BNO055_FRAME_MAX_TIME_MS)
    (h6 : elapsedMs t6 t0 ≤ BNO055_FRAME_MAX_TIME_MS)
    (h7 : elapsedMs t7 t0 ≤ BNO055_FRAME_MAX_TIME_MS) :
    (feed proc s [(0xBB, t0), (6, t1), (b0, t2), (b1, t3), (b2, t4), (b3, t5),
        (b4, t6), (b5, t7)]).st.secondaryImuState
      = proc { s.secondaryImuState with
               raw0 := Int.tdiv (int16OfBytes b3 b2 * 5) 8
               raw1 := -(Int.tdiv (int16OfBytes b5 b4 * 5) 8)
               raw2 := Int.tdiv (int16OfBytes b1 b0 * 5) 8 } ∧
    (feed proc s [(0xBB, t0), (6, t1), (b0, t2), (b1, t3), (b2, t4), (b3, t5),
        (b4, t6), (b5, t7)]).processCalls = 1 := by
  obtain ⟨buf, st, ft, len, idx, start, dt, imu⟩ := s
  simp only at hidle htype hbuf
  subst hidle htype
  simp only [RECEIVE_BUFFER_SIZE, BNO055_FRAME_MAX_TIME_MS] at *
  have e1 : ¬ elapsedMs t1 t0 > 10 := by omega
  have e2 : ¬ elapsedMs t2 t0 > 10 := by omega
  have e3 : ¬ elapsedMs t3 t0 > 10 := by omega
  have e4 : ¬ elapsedMs t4 t0 > 10 := by omega
  have e5 : ¬ elapsedMs t5 t0 > 10 := by omega
  have e6 : ¬ elapsedMs t6 t0 > 10 := by omega
  have e7 : ¬ elapsedMs t7 t0 > 10 := by omega
  have d32 := divBy1_6f_eq (int16OfBytes b3 b2) (toInt16_bounds _).1 (toInt16_bounds _).2
  have d54 := divBy1_6f_eq (int16OfBytes b5 b4) (toInt16_bounds _).1 (toInt16_bounds _).2
  have d10 := divBy1_6f_eq (int16OfBytes b1 b0) (toInt16_bounds _).1 (toInt16_bounds _).2
  simp [feed, bno055SerialDataReceive, elapsedMs_mod, e1, e2, e3, e4, e5, e6, e7,
    BNO055_FRAME_MAX_TIME_MS, Nat.mod_eq_of_lt hb0, Nat.mod_eq_of_lt hb1, Nat.mod_eq_of_lt hb2,
    Nat.mod_eq_of_lt hb3, Nat.mod_eq_of_lt hb4, Nat.mod_eq_of_lt hb5, getD_set, hbuf,
    divByNeg1_6f, d32, d54, d10]

/-- The theorem `euler_frame_decodes` at a concrete frame: yaw bytes `00 10`
(4096, stored as 2560), roll bytes `10 00` (16, stored as 10), pitch bytes
`F0 FF` (-16, stored as 10). -/
theorem euler_frame_decodes_witness :
    (feed id { initialState with bno055DataType := BNO055_DATA_TYPE_EULER }
        [(0xBB, 0), (6, 1), (0x00, 2), (0x10, 3), (0x10, 4), (0x00, 5), (0xF0, 6),
          (0xFF, 7)]).st.secondaryImuState
      = id { initialState.secondaryImuState with raw0 := 10, raw1 := 10, raw2 := 2560 } ∧
    (feed id { initialState with bno055DataType := BNO055_DATA_TYPE_EULER }
        [(0xBB, 0), (6, 1), (0x00, 2), (0x10, 3), (0x10, 4), (0x00, 5), (0xF0, 6),
          (0xFF, 7)]).processCalls = 1 :=
  euler_frame_decodes id { initialState with bno055DataType := BNO055_DATA_TYPE_EULER }
    0x00 0x10 0x10 0x00 0xF0 0xFF 0 1 2 3 4 5 6 7 rfl rfl rfl
    (by decide) (by decide) (by decide) (by decide) (by decide) (by decide)
    (by decide) (by decide) (by decide) (by decide) (by decide) (by decide) (by decide)

/-! ## Decoding of the calibration status -/

/-- C3. For all bytes `b0`, `b1`, `b2`, the frame `0xBB, 3, b0, b1, b2` fed from
idle without timeout, with expected type calibration, sets `calibrationStatus`
to `mag = b0 & 3`, `acc = (b0 >> 2) & 3`, `gyr = (b0 >> 4) & 3`,
`sys = (b0 >> 6) & 3`: the result does not depend on `b1` and `b2`. -/
theorem calibration_frame_decodes
    (proc : secondaryImuState_t → secondaryImuState_t) (s : Bno055)
    (b0 b1 b2 t0 t1 t2 t3 t4 : Nat)
    (hidle : s.bno055ProtocolState = BNO055_RECEIVE_IDLE)
    (htype : s.bno055DataType = BNO055_DATA_TYPE_CALIBRATION_STATS)
    (hbuf : s.receiveBuffer.length = RECEIVE_BUFFER_SIZE)
    (hb0 : b0 < 256) (hb1 : b1 < 256) (hb2 : b2 < 256)
    (h1 : elapsedMs t1 t0 ≤ BNO055_FRAME_MAX_TIME_MS)
    (h2 : elapsedMs t2 t0 ≤ BNO055_FRAME_MAX_TIME_MS)
    (h3 : elapsedMs t3 t0 ≤ BNO055_FRAME_MAX_TIME_MS)
    (h4 : elapsedMs t4 t0 ≤ BNO055_FRAME_MAX_TIME_MS) :
    (feed proc s [(0xBB, t0), (3, t1), (b0, t2), (b1, t3), (b2, t4)]
      ).st.secondaryImuState.calibrationStatus
      = { mag := b0 &&& 3, acc := (b0 >>> 2) &&& 3, gyr := (b0 >>> 4) &&& 3,
          sys := (b0 >>> 6) &&& 3 } := by
  obtain ⟨buf, st, ft, len, idx, start, dt, imu⟩ := s
  simp only at hidle htype hbuf
  subst hidle htype
  simp only [RECEIVE_BUFFER_SIZE, BNO055_FRAME_MAX_TIME_MS] at *
  have e1 : ¬ elapsedMs t1 t0 > 10 := by omega
  have e2 : ¬ elapsedMs t2 t0 > 10 := by omega
  have e3 : ¬ elapsedMs t3 t0 > 10 := by omega
  have e4 : ¬ elapsedMs t4 t0 > 10 := by omega
  simp [feed, bno055SerialDataReceive, elapsedMs_mod, e1, e2, e3, e4, BNO055_FRAME_MAX_TIME_MS,
    Nat.mod_eq_of_lt hb0, Nat.mod_eq_of_lt hb1, Nat.mod_eq_of_lt hb2, getD_set, hbuf]

/-- The theorem `calibration_frame_decodes` at the status byte `0xE4`
(`sys = 3`, `gyr = 2`, `acc = 1`, `mag = 0`) followed by two other bytes. -/
theorem calibration_frame_decodes_witness :
    (feed id { initialState with bno055DataType := BNO055_DATA_TYPE_CALIBRATION_STATS }
        [(0xBB, 0), (3, 1), (0xE4, 2), (0x07, 3), (0x09, 4)]
      ).st.secondaryImuState.calibrationStatus
      = { mag := 0, acc := 1, gyr := 2, sys := 3 } :=
  calibration_frame_decodes id
    { initialState with bno055DataType := BNO055_DATA_TYPE_CALIBRATION_STATS }
    0xE4 0x07 0x09 0 1 2 3 4 rfl rfl rfl (by decide) (by decide) (by decide)
    (by decide) (by decide) (by decide) (by decide)

/-! ## Timeout of a stale frame -/

/-- C4. In a state that is not idle, a byte that arrives more than 10 ms after
the frame start gives the same result as in the same state with the protocol
state replaced by idle. It writes nothing to the buffer, leaves frame length
and index alone and calls no fusion step; `0xEE` and `0xBB` start a new frame
stamped with the current time, and any other byte leaves the machine idle. -/
theorem stale_frame_byte_processed_as_idle
    (proc : secondaryImuState_t → secondaryImuState_t) (s : Bno055) (now c : Nat)
    (hbusy : s.bno055ProtocolState ≠ BNO055_RECEIVE_IDLE)
    (hlate : elapsedMs now s.bno055FrameStartAtMs > BNO055_FRAME_MAX_TIME_MS) :
    bno055SerialDataReceive proc now c s
        = bno055SerialDataReceive proc now c
            { s with bno055ProtocolState := BNO055_RECEIVE_IDLE } ∧
      (bno055SerialDataReceive proc now c s).wrote = none ∧
      (bno055SerialDataReceive proc now c s).processCalls = 0 ∧
      (bno055SerialDataReceive proc now c s).st.receiveBuffer = s.receiveBuffer ∧
      (bno055SerialDataReceive proc now c s).st.bno055FrameLength = s.bno055FrameLength ∧
      (bno055SerialDataReceive proc now c s).st.bno055FrameIndex = s.bno055FrameIndex ∧
      (c % 256 = 0xEE → (bno055SerialDataReceive proc now c s).st =
        { s with bno055FrameStartAtMs := now % 4294967296
                 bno055ProtocolState := BNO055_RECEIVE_HEADER
                 bno055FrameType := BNO055_FRAME_ACK }) ∧
      (c % 256 = 0xBB → (bno055SerialDataReceive proc now c s).st =
        { s with bno055FrameStartAtMs := now % 4294967296
                 bno055ProtocolState := BNO055_RECEIVE_HEADER
                 bno055FrameType := BNO055_FRAME_DATA }) ∧
      (c % 256 ≠ 0xEE → c % 256 ≠ 0xBB → (bno055SerialDataReceive proc now c s).st =
        { s with bno055ProtocolState := BNO055_RECEIVE_IDLE }) := by
  have hlate2 : 10 < elapsedMs now s.bno055FrameStartAtMs := hlate
  refine ⟨?_, ?_, ?_, ?_, ?_, ?_, ?_, ?_, ?_⟩
  · simp [bno055SerialDataReceive, hbusy, hlate2, BNO055_FRAME_MAX_TIME_MS]
  all_goals
    by_cases hEE : c % 256 = 0xEE <;> by_cases hBB : c % 256 = 0xBB <;>
      simp [bno055SerialDataReceive, hbusy, hlate2, BNO055_FRAME_MAX_TIME_MS, hEE, hBB]

/-- The theorem `stale_frame_byte_processed_as_idle` on a frame that has
waited for its third payload byte since time 100, when the byte `0x42` arrives
at time 111. -/
theorem stale_frame_byte_processed_as_idle_witness :
    bno055SerialDataReceive id 111 0x42
        { initialState with bno055ProtocolState := BNO055_RECEIVE_LENGTH
                            bno055FrameType := BNO055_FRAME_DATA
                            bno055FrameLength := 6
                            bno055FrameIndex := 2
                            bno055FrameStartAtMs := 100 }
      = { st := { initialState with bno055ProtocolState := BNO055_RECEIVE_IDLE
                                    bno055FrameType := BNO055_FRAME_DATA
                                    bno055FrameLength := 6
                                    bno055FrameIndex := 2
                                    bno055FrameStartAtMs := 100 }
          wrote := none
          processCalls := 0 } :=
  (stale_frame_byte_processed_as_idle id
      { initialState with bno055ProtocolState := BNO055_RECEIVE_LENGTH
                          bno055FrameType := BNO055_FRAME_DATA
                          bno055FrameLength := 6
                          bno055FrameIndex := 2
                          bno055FrameStartAtMs := 100 }
      111 0x42 (by decide) (by decide)).1.trans (by decide)

/-! ## Yaw wraparound -/

/-- C5. The range fails on the code for a negative sum: `-1`, which lies in
`[-36000, 36000]`, is published as `-1`, which is not in `[0, 3600)`. -/
theorem publishedYaw_negative_input :
    (-36000 : Int) ≤ -1 ∧ (-1 : Int) ≤ 36000 ∧ publishedYaw (-1) = -1 ∧
      ¬ (0 ≤ publishedYaw (-1) ∧ publishedYaw (-1) < 3600) := by
  decide

/-- For a sum that is not negative the published yaw does lie in `[0, 3600)`. -/
theorem publishedYaw_range_of_nonneg (sum : Int) (h : 0 ≤ sum) :
    0 ≤ publishedYaw sum ∧ publishedYaw sum < 3600 := by
  unfold publishedYaw
  rw [Int.tmod_eq_emod h (by norm_num)]
  omega

/-! ## Initialisation -/

/-- The return value of `bno055SerialInit` with a port is the identity check
on the state reached after the identity read and the bytes that follow it. -/
theorem init_result_iff
    (proc : secondaryImuState_t → secondaryImuState_t) (k : bno055Registers) (s : Bno055)
    (rxIdent rxPwr rxOpr : List (Nat × Nat)) :
    (bno055SerialInit proc k true true rxIdent rxPwr rxOpr s).1 = true ↔
      ((feed proc (bno055SerialRead 0x00 1 s).1 rxIdent).st.bno055FrameType
          = BNO055_FRAME_DATA ∧
        (feed proc (bno055SerialRead 0x00 1 s).1 rxIdent).st.receiveBuffer.getD 0 0
          = 0xA0 ∧
        (feed proc (bno055SerialRead 0x00 1 s).1 rxIdent).st.bno055ProtocolState
          = BNO055_RECEIVE_IDLE) := by
  unfold bno055SerialInit
  simp only [Bool.not_true, Bool.false_eq_true, if_false]
  split_ifs with h
  · simp only [Bool.false_eq_true, false_iff]
    intro hall
    rcases h with h | h | h
    · exact h hall.1
    · exact h hall.2.1
    · exact h hall.2.2
  · simp only [true_iff]
    push_neg at h
    exact h

/-- After the identity read, a one-byte DATA frame `0xBB, 1, b` received
without timeout leaves the frame type DATA, the byte `b` in `receiveBuffer[0]`
and the protocol state idle. -/
theorem identity_frame_received
    (proc : secondaryImuState_t → secondaryImuState_t) (s : Bno055) (b t0 t1 t2 : Nat)
    (hbuf : s.receiveBuffer.length = RECEIVE_BUFFER_SIZE) (hb : b < 256)
    (h1 : elapsedMs t1 t0 ≤ BNO055_FRAME_MAX_TIME_MS)
    (h2 : elapsedMs t2 t0 ≤ BNO055_FRAME_MAX_TIME_MS) :
    (feed proc (bno055SerialRead 0x00 1 s).1 [(0xBB, t0), (1, t1), (b, t2)]).st.bno055FrameType
        = BNO055_FRAME_DATA ∧
      (feed proc (bno055SerialRead 0x00 1 s).1
          [(0xBB, t0), (1, t1), (b, t2)]).st.receiveBuffer.getD 0 0 = b ∧
      (feed proc (bno055SerialRead 0x00 1 s).1
          [(0xBB, t0), (1, t1), (b, t2)]).st.bno055ProtocolState = BNO055_RECEIVE_IDLE := by
  obtain ⟨buf, st, ft, len, idx, start, dt, imu⟩ := s
  simp only [RECEIVE_BUFFER_SIZE, BNO055_FRAME_MAX_TIME_MS] at *
  have e1 : ¬ elapsedMs t1 t0 > 10 := by omega
  have e2 : ¬ elapsedMs t2 t0 > 10 := by omega
  cases dt <;>
    simp [bno055SerialRead, feed, bno055SerialDataReceive, elapsedMs_mod,
      e1, e2, BNO055_FRAME_MAX_TIME_MS, getD_set, hbuf, Nat.mod_eq_of_lt hb]

/-- C6. With a serial port configured and opened, `bno055SerialInit` returns
true exactly when, after the identity read and the bytes received during the
wait that follows it, the frame type is DATA, `receiveBuffer[0]` is `0xA0` and
the protocol state is idle. If the handler receives `0xBB, 1, 0xA0` in that
wait (without timeout) the function returns true, whatever arrives after the
two writes, and if it receives `0xBB, 1, 0x00` it returns false. -/
theorem init_checks_identity_frame
    (proc : secondaryImuState_t → secondaryImuState_t) (k : bno055Registers) (s : Bno055)
    (rxIdent rxPwr rxOpr : List (Nat × Nat)) (t0 t1 t2 : Nat)
    (hbuf : s.receiveBuffer.length = RECEIVE_BUFFER_SIZE)
    (h1 : elapsedMs t1 t0 ≤ BNO055_FRAME_MAX_TIME_MS)
    (h2 : elapsedMs t2 t0 ≤ BNO055_FRAME_MAX_TIME_MS) :
    ((bno055SerialInit proc k true true rxIdent rxPwr rxOpr s).1 = true ↔
        ((feed proc (bno055SerialRead 0x00 1 s).1 rxIdent).st.bno055FrameType
            = BNO055_FRAME_DATA ∧
          (feed proc (bno055SerialRead 0x00 1 s).1 rxIdent).st.receiveBuffer.getD 0 0
            = 0xA0 ∧
          (feed proc (bno055SerialRead 0x00 1 s).1 rxIdent).st.bno055ProtocolState
            = BNO055_RECEIVE_IDLE)) ∧
      (bno055SerialInit proc k true true [(0xBB, t0), (1, t1), (0xA0, t2)] rxPwr rxOpr s).1
        = true ∧
      (bno055SerialInit proc k true true [(0xBB, t0), (1, t1), (0x00, t2)] rxPwr rxOpr s).1
        = false := by
  refine ⟨init_result_iff proc k s rxIdent rxPwr rxOpr, ?_, ?_⟩
  · rw [init_result_iff]
    exact identity_frame_received proc s 0xA0 t0 t1 t2 hbuf (by norm_num) h1 h2
  · rw [Bool.eq_false_iff]
    intro h
    rw [init_result_iff] at h
    have hrx := identity_frame_received proc s 0x00 t0 t1 t2 hbuf (by norm_num) h1 h2
    rw [hrx.2.1] at h
    exact absurd h.2.1 (by norm_num)

/-- The theorem `init_checks_identity_frame` from the initial state, with the
three bytes of the identity frame arriving at times 1, 2 and 3. -/
theorem init_checks_identity_frame_witness :
    (bno055SerialInit id ⟨0x3E, 0x3D, 0x35, 0x1A, 0x00, 0x0C⟩ true true
        [(0xBB, 1), (1, 2), (0xA0, 3)] [] [] initialState).1 = true ∧
      (bno055SerialInit id ⟨0x3E, 0x3D, 0x35, 0x1A, 0x00, 0x0C⟩ true true
        [(0xBB, 1), (1, 2), (0x00, 3)] [] [] initialState).1 = false :=
  (init_checks_identity_frame id ⟨0x3E, 0x3D, 0x35, 0x1A, 0x00, 0x0C⟩ initialState
    [] [] [] 1 2 3 (by decide) (by decide) (by decide)).2

/-! ## Bytes outside a frame -/

/-- C7. In an idle state, a byte other than `0xEE` and `0xBB` changes nothing:
the handler returns the state it was given (protocol state, frame type,
length, index, start time, buffer, expected data type, orientation and
calibration state), writes nothing and calls no fusion step. -/
theorem idle_ignores_other_bytes
    (proc : secondaryImuState_t → secondaryImuState_t) (s : Bno055) (now c : Nat)
    (hidle : s.bno055ProtocolState = BNO055_RECEIVE_IDLE)
    (hEE : c % 256 ≠ 0xEE) (hBB : c % 256 ≠ 0xBB) :
    bno055SerialDataReceive proc now c s = { st := s, wrote := none, processCalls := 0 } := by
  simp [bno055SerialDataReceive, hidle, hEE, hBB]

/-- The theorem `idle_ignores_other_bytes` at the initial state and the byte
`0xAA`. -/
theorem idle_ignores_other_bytes_witness :
    bno055SerialDataReceive id 5 0xAA initialState
      = { st := initialState, wrote := none, processCalls := 0 } :=
  idle_ignores_other_bytes id initialState 5 0xAA rfl (by decide) (by decide)

/-! ## Frame length and index -/

/-- C8. The invariant fails on the code. After `0xBB, 17` from the initial state
the machine accumulates payload with frame length 17, above the capacity of
16; after `0xBB, 0` and one more byte it accumulates payload with frame index 1
above frame length 0. -/
theorem accumulating_length_and_index_unbounded :
    ((feed id initialState [(0xBB, 0), (17, 0)]).st.bno055ProtocolState
        = BNO055_RECEIVE_LENGTH ∧
      ¬ (feed id initialState [(0xBB, 0), (17, 0)]).st.bno055FrameLength
          ≤ RECEIVE_BUFFER_SIZE) ∧
    ((feed id initialState [(0xBB, 0), (0, 0), (0x55, 0)]).st.bno055ProtocolState
        = BNO055_RECEIVE_LENGTH ∧
      ¬ (feed id initialState [(0xBB, 0), (0, 0), (0x55, 0)]).st.bno055FrameIndex
          ≤ (feed id initialState [(0xBB, 0), (0, 0), (0x55, 0)]).st.bno055FrameLength) := by
  decide

/-- C9. The rejection is missing from the code: after `0xBB` and the length byte
`17` the protocol state is the accumulating state, not idle, the frame length
is 17, and the byte `0x55` that follows is stored as payload in
`receiveBuffer[0]`. -/
theorem oversized_length_not_rejected :
    (feed id initialState [(0xBB, 0), (17, 0)]).st.bno055ProtocolState
        = BNO055_RECEIVE_LENGTH ∧
      (feed id initialState [(0xBB, 0), (17, 0)]).st.bno055ProtocolState
        ≠ BNO055_RECEIVE_IDLE ∧
      (feed id initialState [(0xBB, 0), (17, 0)]).st.bno055FrameLength = 17 ∧
      (bno055SerialDataReceive id 0 0x55
          (feed id initialState [(0xBB, 0), (17, 0)]).st).wrote = some 0 ∧
      (bno055SerialDataReceive id 0 0x55
          (feed id initialState [(0xBB, 0), (17, 0)]).st).st.receiveBuffer.getD 0 0 = 0x55 := by
  decide

/-! ## Received bytes without a pending request -/

/-- With expected data type NONE, one call of the handler keeps the type NONE,
leaves `secondaryImuState` as it is and calls no fusion step. -/
theorem receive_inert_without_request
    (proc : secondaryImuState_t → secondaryImuState_t) (s : Bno055) (now c : Nat)
    (hnone : s.bno055DataType = BNO055_DATA_TYPE_NONE) :
    (bno055SerialDataReceive proc now c s).st.bno055DataType = BNO055_DATA_TYPE_NONE ∧
      (bno055SerialDataReceive proc now c s).st.secondaryImuState = s.secondaryImuState ∧
      (bno055SerialDataReceive proc now c s).processCalls = 0 := by
  unfold bno055SerialDataReceive
  simp only [hnone]
  split_ifs <;> simp_all

/-- With expected data type NONE, any sequence of received bytes keeps the type
NONE, leaves `secondaryImuState` as it is and calls no fusion step. -/
theorem feed_inert_without_request
    (proc : secondaryImuState_t → secondaryImuState_t) (rx : List (Nat × Nat)) :
    ∀ s : Bno055, s.bno055DataType = BNO055_DATA_TYPE_NONE →
      (feed proc s rx).st.bno055DataType = BNO055_DATA_TYPE_NONE ∧
        (feed proc s rx).st.secondaryImuState = s.secondaryImuState ∧
        (feed proc s rx).processCalls = 0 := by
  induction rx with
  | nil => intro s hnone; exact ⟨hnone, rfl, rfl⟩
  | cons p rest ih =>
    intro s hnone
    obtain ⟨c, now⟩ := p
    have hstep := receive_inert_without_request proc s now c hnone
    have hrest := ih (bno055SerialDataReceive proc now c s).st hstep.1
    simp only [feed]
    refine ⟨hrest.1, ?_, ?_⟩
    · rw [hrest.2.1, hstep.2.1]
    · rw [hrest.2.2, hstep.2.2]

/-! ## Command encoders -/

/-- C11. For all register, data and length bytes, the write command transmits
exactly the five bytes `0xAA, 0x00, register, 1, data` in that order and the
read command exactly the four bytes `0xAA, 0x01, register, length` in that
order, whatever the state. -/
theorem command_bytes (s : Bno055) (reg data len : Nat)
    (hreg : reg < 256) (hdata : data < 256) (hlen : len < 256) :
    (bno055SerialWrite reg data s).2 = [0xAA, 0x00, reg, 1, data] ∧
      (bno055SerialRead reg len s).2 = [0xAA, 0x01, reg, len] := by
  simp [bno055SerialWrite, bno055SerialRead, Nat.mod_eq_of_lt hreg, Nat.mod_eq_of_lt hdata,
    Nat.mod_eq_of_lt hlen]

/-- The theorem `command_bytes` at the register `0x3D` with data `0x0C` and
length 6. -/
theorem command_bytes_witness :
    (bno055SerialWrite 0x3D 0x0C initialState).2 = [0xAA, 0x00, 0x3D, 1, 0x0C] ∧
      (bno055SerialRead 0x3D 6 initialState).2 = [0xAA, 0x01, 0x3D, 6] :=
  command_bytes initialState 0x3D 0x0C 6 (by decide) (by decide) (by decide)

/-- C12. `bno055SerialFetchEulerAngles` transmits the four bytes
`0xAA, 0x01, register, 6` of a read command for 6 bytes at the Euler yaw-LSB
register, and at the moment each of these bytes is handed to `serialWrite` the
expected data type is already Euler; `bno055SerialGetCalibStat` transmits the
four bytes `0xAA, 0x01, register, 1` of a read command for 1 byte at the
calibration-status register, and at the moment each byte is handed over the
expected data type is already calibration. The logged functions have the final
state and the bytes of the plain ones. -/
theorem request_commands (k : bno055Registers) (s : Bno055) (log : List TxEvent)
    (hyaw : k.BNO055_ADDR_EUL_YAW_LSB < 256) (hcal : k.BNO055_ADDR_CALIB_STAT < 256) :
    ((bno055SerialFetchEulerAnglesLogged k (s, log)).2
        = log ++ [{ byte := 0xAA, expected := BNO055_DATA_TYPE_EULER },
                  { byte := 0x01, expected := BNO055_DATA_TYPE_EULER },
                  { byte := k.BNO055_ADDR_EUL_YAW_LSB, expected := BNO055_DATA_TYPE_EULER },
                  { byte := 6, expected := BNO055_DATA_TYPE_EULER }] ∧
      ((bno055SerialFetchEulerAnglesLogged k (s, [])).1,
          (bno055SerialFetchEulerAnglesLogged k (s, [])).2.map TxEvent.byte)
        = bno055SerialFetchEulerAngles k s ∧
      (bno055SerialFetchEulerAngles k s).1.bno055DataType = BNO055_DATA_TYPE_EULER ∧
      (bno055SerialFetchEulerAngles k s).2 = [0xAA, 0x01, k.BNO055_ADDR_EUL_YAW_LSB, 6]) ∧
    ((bno055SerialGetCalibStatLogged k (s, log)).2
        = log ++ [{ byte := 0xAA, expected := BNO055_DATA_TYPE_CALIBRATION_STATS },
                  { byte := 0x01, expected := BNO055_DATA_TYPE_CALIBRATION_STATS },
                  { byte := k.BNO055_ADDR_CALIB_STAT,
                    expected := BNO055_DATA_TYPE_CALIBRATION_STATS },
                  { byte := 1, expected := BNO055_DATA_TYPE_CALIBRATION_STATS }] ∧
      ((bno055SerialGetCalibStatLogged k (s, [])).1,
          (bno055SerialGetCalibStatLogged k (s, [])).2.map TxEvent.byte)
        = bno055SerialGetCalibStat k s ∧
      (bno055SerialGetCalibStat k s).1.bno055DataType
        = BNO055_DATA_TYPE_CALIBRATION_STATS ∧
      (bno055SerialGetCalibStat k s).2 = [0xAA, 0x01, k.BNO055_ADDR_CALIB_STAT, 1]) := by
  simp [bno055SerialFetchEulerAnglesLogged, bno055SerialGetCalibStatLogged,
    bno055SerialReadLogged, serialWrite, bno055SerialFetchEulerAngles,
    bno055SerialGetCalibStat, bno055SerialRead, Nat.mod_eq_of_lt hyaw, Nat.mod_eq_of_lt hcal]

/-- The theorem `request_commands` with the yaw-LSB register at `0x1A` and the
calibration-status register at `0x35`, called while the other request is
pending: every byte leaves with the new expected type. -/
theorem request_commands_witness :
    (bno055SerialFetchEulerAnglesLogged ⟨0x3E, 0x3D, 0x35, 0x1A, 0x00, 0x0C⟩
        ({ initialState with bno055DataType := BNO055_DATA_TYPE_CALIBRATION_STATS }, [])).2
      = [{ byte := 0xAA, expected := BNO055_DATA_TYPE_EULER },
         { byte := 0x01, expected := BNO055_DATA_TYPE_EULER },
         { byte := 0x1A, expected := BNO055_DATA_TYPE_EULER },
         { byte := 6, expected := BNO055_DATA_TYPE_EULER }] ∧
    (bno055SerialGetCalibStatLogged ⟨0x3E, 0x3D, 0x35, 0x1A, 0x00, 0x0C⟩
        ({ initialState with bno055DataType := BNO055_DATA_TYPE_EULER }, [])).2
      = [{ byte := 0xAA, expected := BNO055_DATA_TYPE_CALIBRATION_STATS },
         { byte := 0x01, expected := BNO055_DATA_TYPE_CALIBRATION_STATS },
         { byte := 0x35, expected := BNO055_DATA_TYPE_CALIBRATION_STATS },
         { byte := 1, expected := BNO055_DATA_TYPE_CALIBRATION_STATS }] :=
  ⟨(request_commands ⟨0x3E, 0x3D, 0x35, 0x1A, 0x00, 0x0C⟩
      { initialState with bno055DataType := BNO055_DATA_TYPE_CALIBRATION_STATS } []
      (by decide) (by decide)).1.1,
    (request_commands ⟨0x3E, 0x3D, 0x35, 0x1A, 0x00, 0x0C⟩
      { initialState with bno055DataType := BNO055_DATA_TYPE_EULER } []
      (by decide) (by decide)).2.1⟩

/-! ## ACK frames -/

/-- C13. For every status byte `b`, the bytes `0xEE, b` fed from idle without
timeout leave the machine in the header state after the first byte and idle
after the second, with frame type ACK, `b` in `receiveBuffer[0]` and the other
cells as before. Exactly one write is made, at index 0; nothing is decoded:
the expected data type and `secondaryImuState` (raw Euler angles, calibration
status) are unchanged and no fusion step is called. -/
theorem ack_frame_received
    (proc : secondaryImuState_t → secondaryImuState_t) (s : Bno055) (b t0 t1 : Nat)
    (hidle : s.bno055ProtocolState = BNO055_RECEIVE_IDLE)
    (hbuf : s.receiveBuffer.length = RECEIVE_BUFFER_SIZE)
    (hb : b < 256)
    (h1 : elapsedMs t1 t0 ≤ BNO055_FRAME_MAX_TIME_MS) :
    (feed proc s [(0xEE, t0)]).st.bno055ProtocolState = BNO055_RECEIVE_HEADER ∧
      (feed proc s [(0xEE, t0), (b, t1)]).st
        = { s with receiveBuffer := s.receiveBuffer.set 0 b
                   bno055ProtocolState := BNO055_RECEIVE_IDLE
                   bno055FrameType := BNO055_FRAME_ACK
                   bno055FrameStartAtMs := t0 % 4294967296 } ∧
      (feed proc s [(0xEE, t0), (b, t1)]).st.receiveBuffer.getD 0 0 = b ∧
      (feed proc s [(0xEE, t0), (b, t1)]).writes = [0] ∧
      (feed proc s [(0xEE, t0), (b, t1)]).processCalls = 0 ∧
      (feed proc s [(0xEE, t0), (b, t1)]).st.bno055DataType = s.bno055DataType ∧
      (feed proc s [(0xEE, t0), (b, t1)]).st.secondaryImuState = s.secondaryImuState := by
  obtain ⟨buf, st, ft, len, idx, start, dt, imu⟩ := s
  simp only at hidle hbuf
  subst hidle
  simp only [RECEIVE_BUFFER_SIZE, BNO055_FRAME_MAX_TIME_MS] at *
  have e1 : ¬ elapsedMs t1 t0 > 10 := by omega
  simp [feed, bno055SerialDataReceive, elapsedMs_mod, e1, BNO055_FRAME_MAX_TIME_MS,
    Nat.mod_eq_of_lt hb, getD_set, hbuf]

/-- The theorem `ack_frame_received` on the acknowledgement `0xEE, 0x01`
received while a calibration request is pending. -/
theorem ack_frame_received_witness :
    (feed id { initialState with bno055DataType := BNO055_DATA_TYPE_CALIBRATION_STATS }
        [(0xEE, 7), (0x01, 8)]).st
      = { initialState with
          receiveBuffer := [1, 0, 0, 0, 0, 0, 0, 0, 0, 0, 0, 0, 0, 0, 0, 0]
          bno055FrameStartAtMs := 7
          bno055DataType := BNO055_DATA_TYPE_CALIBRATION_STATS } ∧
    (feed id { initialState with bno055DataType := BNO055_DATA_TYPE_CALIBRATION_STATS }
        [(0xEE, 7), (0x01, 8)]).writes = [0] ∧
    (feed id { initialState with bno055DataType := BNO055_DATA_TYPE_CALIBRATION_STATS }
        [(0xEE, 7), (0x01, 8)]).processCalls = 0 :=
  have h := ack_frame_received id
    { initialState with bno055DataType := BNO055_DATA_TYPE_CALIBRATION_STATS }
    0x01 7 8 rfl rfl (by decide) (by decide)
  ⟨h.2.1.trans (by decide), h.2.2.2.1, h.2.2.2.2.1⟩

/-! ## Decoding on completion -/

/-- C14, as stated, fails: the stored value is not the quotient by 1.6. With
`buf[0] = 0x01` and `buf[1] = 0x00` the 16-bit yaw value is 1, its quotient by
1.6 is 0.625, and the completing call stores 0 in slot 2. -/
theorem euler_decode_not_exact_quotient :
    (bno055SerialDataReceive id 3 0x00
        { initialState with
          receiveBuffer := [0x01, 0x00, 0, 0, 0, 0, 0, 0, 0, 0, 0, 0, 0, 0, 0, 0]
          bno055ProtocolState := BNO055_RECEIVE_LENGTH
          bno055FrameType := BNO055_FRAME_DATA
          bno055FrameLength := 6
          bno055FrameIndex := 5
          bno055DataType := BNO055_DATA_TYPE_EULER }).st.secondaryImuState.raw2 = 0 ∧
      int16OfBytes 0x00 0x01 = 1 ∧
      (((bno055SerialDataReceive id 3 0x00
        { initialState with
          receiveBuffer := [0x01, 0x00, 0, 0, 0, 0, 0, 0, 0, 0, 0, 0, 0, 0, 0, 0]
          bno055ProtocolState := BNO055_RECEIVE_LENGTH
          bno055FrameType := BNO055_FRAME_DATA
          bno055FrameLength := 6
          bno055FrameIndex := 5
          bno055DataType := BNO055_DATA_TYPE_EULER }).st.secondaryImuState.raw2 : ℚ)
        ≠ (int16OfBytes 0x00 0x01 : ℚ) / (16 / 10)) := by
  have h0 : (bno055SerialDataReceive id 3 0x00
        { initialState with
          receiveBuffer := [0x01, 0x00, 0, 0, 0, 0, 0, 0, 0, 0, 0, 0, 0, 0, 0, 0]
          bno055ProtocolState := BNO055_RECEIVE_LENGTH
          bno055FrameType := BNO055_FRAME_DATA
          bno055FrameLength := 6
          bno055FrameIndex := 5
          bno055DataType := BNO055_DATA_TYPE_EULER }).st.secondaryImuState.raw2 = 0 := by
    decide
  have h1 : int16OfBytes 0x00 0x01 = 1 := by decide
  refine ⟨h0, h1, ?_⟩
  rw [h0, h1]
  norm_num

/-- C14, amended. When a call of the handler completes a DATA frame (the machine
accumulates payload, the frame has not timed out and the incremented index
equals the frame length) with expected data type Euler, and stores the
completing byte inside the 16-cell buffer, then, `buf` being the buffer with
that byte stored, slot 2 (yaw, read as `z`) receives the signed 16-bit value
with high byte `buf[1]` and low byte `buf[0]` divided by 1.6, slot 1 (pitch, `y`)
the one with high byte `buf[5]` and low byte `buf[4]` divided by 1.6 with its
sign inverted, and slot 0 (roll, `x`) the one with high byte `buf[3]` and low
byte `buf[2]` divided by 1.6, each quotient truncated toward zero to an integer
(tenths of a degree); the state so written is passed to `secondaryImuProcess`. -/
theorem euler_decode_on_completion
    (proc : secondaryImuState_t → secondaryImuState_t) (s : Bno055) (now c : Nat)
    (hstate : s.bno055ProtocolState = BNO055_RECEIVE_LENGTH)
    (hfresh : elapsedMs now s.bno055FrameStartAtMs ≤ BNO055_FRAME_MAX_TIME_MS)
    (hlast : (s.bno055FrameIndex + 1) % 256 = s.bno055FrameLength)
    (htype : s.bno055DataType = BNO055_DATA_TYPE_EULER)
    (hbuf : s.receiveBuffer.length = RECEIVE_BUFFER_SIZE)
    (hstore : s.bno055FrameIndex < RECEIVE_BUFFER_SIZE) :
    (bno055SerialDataReceive proc now c s).wrote = some s.bno055FrameIndex ∧
    (bno055SerialDataReceive proc now c s).st.receiveBuffer
        = s.receiveBuffer.set s.bno055FrameIndex (c % 256) ∧
      (bno055SerialDataReceive proc now c s).st.secondaryImuState
        = proc { s.secondaryImuState with
                 raw0 := Int.tdiv
                   (int16OfBytes
                     ((s.receiveBuffer.set s.bno055FrameIndex (c % 256)).getD 3 0)
                     ((s.receiveBuffer.set s.bno055FrameIndex (c % 256)).getD 2 0) * 5) 8
                 raw1 := -(Int.tdiv
                   (int16OfBytes
                     ((s.receiveBuffer.set s.bno055FrameIndex (c % 256)).getD 5 0)
                     ((s.receiveBuffer.set s.bno055FrameIndex (c % 256)).getD 4 0) * 5) 8)
                 raw2 := Int.tdiv
                   (int16OfBytes
                     ((s.receiveBuffer.set s.bno055FrameIndex (c % 256)).getD 1 0)
                     ((s.receiveBuffer.set s.bno055FrameIndex (c % 256)).getD 0 0) * 5) 8 } := by
  have hin : s.bno055FrameIndex < s.receiveBuffer.length := by
    rw [hbuf]; exact hstore
  obtain ⟨buf, st, ft, len, idx, start, dt, imu⟩ := s
  simp only at hstate hlast hfresh htype hin
  subst hstate htype
  have hfresh2 : ¬ 10 < elapsedMs now start := by
    simp only [BNO055_FRAME_MAX_TIME_MS] at hfresh; omega
  have d32 := divBy1_6f_eq
    (int16OfBytes ((buf.set idx (c % 256)).getD 3 0) ((buf.set idx (c % 256)).getD 2 0))
    (toInt16_bounds _).1 (toInt16_bounds _).2
  have d54 := divBy1_6f_eq
    (int16OfBytes ((buf.set idx (c % 256)).getD 5 0) ((buf.set idx (c % 256)).getD 4 0))
    (toInt16_bounds _).1 (toInt16_bounds _).2
  have d10 := divBy1_6f_eq
    (int16OfBytes ((buf.set idx (c % 256)).getD 1 0) ((buf.set idx (c % 256)).getD 0 0))
    (toInt16_bounds _).1 (toInt16_bounds _).2
  simp only [List.getD_eq_getElem?_getD] at d32 d54 d10
  simp [bno055SerialDataReceive, hlast, hfresh2, BNO055_FRAME_MAX_TIME_MS, divByNeg1_6f,
    d32, d54, d10]

/-- The theorem `euler_decode_on_completion` on the sixth payload byte `0xFF`
of a frame whose first five bytes are `00 10 10 00 F0`: yaw 4096 is stored as
2560, roll 16 as 10 and pitch -16 as 10. -/
theorem euler_decode_on_completion_witness :
    (bno055SerialDataReceive id 3 0xFF
        { initialState with
          receiveBuffer := [0x00, 0x10, 0x10, 0x00, 0xF0, 0, 0, 0, 0, 0, 0, 0, 0, 0, 0, 0]
          bno055ProtocolState := BNO055_RECEIVE_LENGTH
          bno055FrameType := BNO055_FRAME_DATA
          bno055FrameLength := 6
          bno055FrameIndex := 5
          bno055DataType := BNO055_DATA_TYPE_EULER }).st.secondaryImuState
      = { initialState.secondaryImuState with raw0 := 10, raw1 := 10, raw2 := 2560 } :=
  (euler_decode_on_completion id
    { initialState with
      receiveBuffer := [0x00, 0x10, 0x10, 0x00, 0xF0, 0, 0, 0, 0, 0, 0, 0, 0, 0, 0, 0]
      bno055ProtocolState := BNO055_RECEIVE_LENGTH
      bno055FrameType := BNO055_FRAME_DATA
      bno055FrameLength := 6
      bno055FrameIndex := 5
      bno055DataType := BNO055_DATA_TYPE_EULER }
    3 0xFF rfl (by decide) (by decide) rfl rfl (by decide)).2.2.trans (by decide)

/-! ## Effect of the commands on the receive state -/

/-- C15, as stated, fails: with a DATA frame partially received (two of six
payload bytes stored), the read command, the write command and both request
functions leave the protocol state idle, not accumulating as it was. -/
theorem commands_change_protocol_state :
    (bno055SerialRead 0x1A 6
        { initialState with bno055ProtocolState := BNO055_RECEIVE_LENGTH
                            bno055FrameType := BNO055_FRAME_DATA
                            bno055FrameLength := 6
                            bno055FrameIndex := 2 }).1.bno055ProtocolState
      ≠ BNO055_RECEIVE_LENGTH ∧
    (bno055SerialWrite 0x3D 0x0C
        { initialState with bno055ProtocolState := BNO055_RECEIVE_LENGTH
                            bno055FrameType := BNO055_FRAME_DATA
                            bno055FrameLength := 6
                            bno055FrameIndex := 2 }).1.bno055ProtocolState
      ≠ BNO055_RECEIVE_LENGTH ∧
    (bno055SerialFetchEulerAngles ⟨0x3E, 0x3D, 0x35, 0x1A, 0x00, 0x0C⟩
        { initialState with bno055ProtocolState := BNO055_RECEIVE_LENGTH
                            bno055FrameType := BNO055_FRAME_DATA
                            bno055FrameLength := 6
                            bno055FrameIndex := 2 }).1.bno055ProtocolState
      ≠ BNO055_RECEIVE_LENGTH ∧
    (bno055SerialGetCalibStat ⟨0x3E, 0x3D, 0x35, 0x1A, 0x00, 0x0C⟩
        { initialState with bno055ProtocolState := BNO055_RECEIVE_LENGTH
                            bno055FrameType := BNO055_FRAME_DATA
                            bno055FrameLength := 6
                            bno055FrameIndex := 2 }).1.bno055ProtocolState
      ≠ BNO055_RECEIVE_LENGTH := by
  decide

/-- C15, amended. For every prior state, a partially received frame included,
the read and write encoders change nothing but the protocol state, which they
set to idle; the two request functions change nothing but the protocol state,
set to idle, and the expected data type. Frame type, frame length, frame
index, frame start time and receive buffer are the same after the call as
before. -/
theorem commands_reset_protocol_state_only (k : bno055Registers) (s : Bno055)
    (reg data len : Nat) :
    (bno055SerialWrite reg data s).1
        = { s with bno055ProtocolState := BNO055_RECEIVE_IDLE } ∧
      (bno055SerialRead reg len s).1
        = { s with bno055ProtocolState := BNO055_RECEIVE_IDLE } ∧
      (bno055SerialFetchEulerAngles k s).1
        = { s with bno055ProtocolState := BNO055_RECEIVE_IDLE
                   bno055DataType := BNO055_DATA_TYPE_EULER } ∧
      (bno055SerialGetCalibStat k s).1
        = { s with bno055ProtocolState := BNO055_RECEIVE_IDLE
                   bno055DataType := BNO055_DATA_TYPE_CALIBRATION_STATS } := by
  simp [bno055SerialWrite, bno055SerialRead, bno055SerialFetchEulerAngles,
    bno055SerialGetCalibStat]

/-! ## Accumulation of a DATA frame -/

/-- Writing cell `i` and keeping the first `i + 1` cells gives the first `i`
old cells followed by the written value. -/
theorem take_succ_set (l : List Nat) (i v : Nat) (h : i < l.length) :
    (l.set i v).take (i + 1) = l.take i ++ [v] := by
  rw [List.set_eq_take_append_cons_drop, if_pos h]
  have : l.take i ++ v :: l.drop (i + 1) = (l.take i ++ [v]) ++ l.drop (i + 1) := by simp
  rw [this]
  apply List.take_left'
  simp
  omega

/-- Feeding two sequences one after the other is feeding their concatenation. -/
theorem feed_append_st (proc : secondaryImuState_t → secondaryImuState_t)
    (a b : List (Nat × Nat)) :
    ∀ s : Bno055, (feed proc s (a ++ b)).st = (feed proc (feed proc s a).st b).st := by
  induction a with
  | nil => intro s; rfl
  | cons p rest ih =>
    intro s
    obtain ⟨c, now⟩ := p
    simp only [List.cons_append, feed]
    exact ih _

/-- A payload byte that does not complete the frame is stored at the frame
index, which is incremented; nothing else changes. -/
theorem receive_payload_byte
    (proc : secondaryImuState_t → secondaryImuState_t) (s : Bno055) (now c : Nat)
    (hstate : s.bno055ProtocolState = BNO055_RECEIVE_LENGTH)
    (hfresh : elapsedMs now s.bno055FrameStartAtMs ≤ BNO055_FRAME_MAX_TIME_MS)
    (hmore : (s.bno055FrameIndex + 1) % 256 ≠ s.bno055FrameLength) :
    bno055SerialDataReceive proc now c s
      = { st := { s with receiveBuffer := s.receiveBuffer.set s.bno055FrameIndex (c % 256)
                         bno055FrameIndex := (s.bno055FrameIndex + 1) % 256 }
          wrote := some s.bno055FrameIndex
          processCalls := 0 } := by
  have hlate : ¬ 10 < elapsedMs now s.bno055FrameStartAtMs := by
    simp only [BNO055_FRAME_MAX_TIME_MS] at hfresh; omega
  simp [bno055SerialDataReceive, hstate, hlate, hmore, BNO055_FRAME_MAX_TIME_MS]

/-- The payload byte that completes the frame is stored at the frame index and
the machine returns to idle. -/
theorem receive_last_payload_byte
    (proc : secondaryImuState_t → secondaryImuState_t) (s : Bno055) (now c : Nat)
    (hstate : s.bno055ProtocolState = BNO055_RECEIVE_LENGTH)
    (hfresh : elapsedMs now s.bno055FrameStartAtMs ≤ BNO055_FRAME_MAX_TIME_MS)
    (hlast : (s.bno055FrameIndex + 1) % 256 = s.bno055FrameLength) :
    (bno055SerialDataReceive proc now c s).st.bno055ProtocolState = BNO055_RECEIVE_IDLE ∧
      (bno055SerialDataReceive proc now c s).st.receiveBuffer
        = s.receiveBuffer.set s.bno055FrameIndex (c % 256) := by
  obtain ⟨buf, st, ft, len, idx, start, dt, imu⟩ := s
  simp only at hstate hlast hfresh
  subst hstate
  have hlate : ¬ 10 < elapsedMs now start := by
    simp only [BNO055_FRAME_MAX_TIME_MS] at hfresh; omega
  cases dt <;> simp [bno055SerialDataReceive, hlast, hlate, BNO055_FRAME_MAX_TIME_MS]

/-- While the bytes received do not complete the frame, they are stored in
consecutive cells from the frame index on and the machine keeps accumulating. -/
theorem feed_accumulates (proc : secondaryImuState_t → secondaryImuState_t)
    (pl : List (Nat × Nat)) :
    ∀ s : Bno055, s.bno055ProtocolState = BNO055_RECEIVE_LENGTH →
      s.bno055FrameIndex + pl.length < s.bno055FrameLength →
      s.bno055FrameLength ≤ 256 →
      s.bno055FrameIndex + pl.length ≤ s.receiveBuffer.length →
      (∀ p ∈ pl, p.1 < 256 ∧ elapsedMs p.2 s.bno055FrameStartAtMs ≤ BNO055_FRAME_MAX_TIME_MS) →
      (feed proc s pl).st
        = { s with
            receiveBuffer := s.receiveBuffer.take s.bno055FrameIndex ++ pl.map Prod.fst ++
              s.receiveBuffer.drop (s.bno055FrameIndex + pl.length)
            bno055FrameIndex := s.bno055FrameIndex + pl.length } := by
  induction pl with
  | nil =>
    intro s _ _ _ _ _
    simp [feed]
  | cons p rest ih =>
    intro s hstate hlt h256 hroom hall
    obtain ⟨c, now⟩ := p
    simp only [List.length_cons] at hlt hroom
    have hp := hall (c, now) (List.mem_cons_self _ _)
    have hidx : (s.bno055FrameIndex + 1) % 256 = s.bno055FrameIndex + 1 :=
      Nat.mod_eq_of_lt (by omega)
    have hstep := receive_payload_byte proc s now c hstate hp.2 (by rw [hidx]; omega)
    have hih := ih (bno055SerialDataReceive proc now c s).st
      (by rw [hstep]; exact hstate)
      (by rw [hstep]; simp only [hidx]; omega)
      (by rw [hstep]; exact h256)
      (by rw [hstep]; simp only [hidx, List.length_set]; omega)
      (fun q hq => by rw [hstep]; exact hall q (List.mem_cons_of_mem _ hq))
    simp only [feed]
    rw [hih, hstep]
    simp only [hidx, Nat.mod_eq_of_lt hp.1, List.map_cons, List.length_cons]
    rw [take_succ_set _ _ _ (by omega), List.drop_set_of_lt _ _ (by omega)]
    have e1 : s.bno055FrameIndex + 1 + rest.length = s.bno055FrameIndex + (rest.length + 1) := by
      omega
    simp [e1]


/-- C16. For every length `L` with `1 <= L <= 16` and all payload bytes (any
values, `0xEE` and `0xBB` included), the frame `0xBB, L, p0, ..., p(L-1)` fed
from idle without timeout keeps the machine in the accumulating state after
the length byte and after each of the first `L - 1` payload bytes, returns it to
idle after the `L`-th, and leaves the payload in the first `L` cells of
`receiveBuffer` with the other cells unchanged. -/
theorem data_frame_fills_buffer
    (proc : secondaryImuState_t → secondaryImuState_t) (s : Bno055) (L t0 tL : Nat)
    (pl : List (Nat × Nat))
    (hidle : s.bno055ProtocolState = BNO055_RECEIVE_IDLE)
    (hbuf : s.receiveBuffer.length = RECEIVE_BUFFER_SIZE)
    (hL1 : 1 ≤ L) (hL16 : L ≤ RECEIVE_BUFFER_SIZE) (hlen : pl.length = L)
    (htL : elapsedMs tL t0 ≤ BNO055_FRAME_MAX_TIME_MS)
    (hall : ∀ p ∈ pl, p.1 < 256 ∧ elapsedMs p.2 t0 ≤ BNO055_FRAME_MAX_TIME_MS) :
    (∀ j, j < L →
        (feed proc s ((0xBB, t0) :: (L, tL) :: pl.take j)).st.bno055ProtocolState
          = BNO055_RECEIVE_LENGTH) ∧
      (feed proc s ((0xBB, t0) :: (L, tL) :: pl)).st.bno055ProtocolState
        = BNO055_RECEIVE_IDLE ∧
      (feed proc s ((0xBB, t0) :: (L, tL) :: pl)).st.receiveBuffer
        = pl.map Prod.fst ++ s.receiveBuffer.drop L := by
  simp only [RECEIVE_BUFFER_SIZE] at hbuf hL16
  have hLmod : L % 256 = L := Nat.mod_eq_of_lt (by omega)
  have hlateL : ¬ 10 < elapsedMs tL t0 := by
    simp only [BNO055_FRAME_MAX_TIME_MS] at htL; omega
  -- the state after the header and the length byte
  have h2 : ∀ rest : List (Nat × Nat),
      (feed proc s ((0xBB, t0) :: (L, tL) :: rest)).st
        = (feed proc
            { s with bno055FrameStartAtMs := t0 % 4294967296
                     bno055ProtocolState := BNO055_RECEIVE_LENGTH
                     bno055FrameType := BNO055_FRAME_DATA
                     bno055FrameLength := L
                     bno055FrameIndex := 0 } rest).st := by
    intro rest
    simp [feed, bno055SerialDataReceive, hidle, hLmod, hlateL, elapsedMs_mod,
      BNO055_FRAME_MAX_TIME_MS]
  have hacc : ∀ part : List (Nat × Nat), part.length < L → (∀ p ∈ part, p ∈ pl) →
      (feed proc s ((0xBB, t0) :: (L, tL) :: part)).st
        = { s with bno055FrameStartAtMs := t0 % 4294967296
                   bno055ProtocolState := BNO055_RECEIVE_LENGTH
                   bno055FrameType := BNO055_FRAME_DATA
                   bno055FrameLength := L
                   receiveBuffer := part.map Prod.fst ++ s.receiveBuffer.drop part.length
                   bno055FrameIndex := part.length } := by
    intro part hpart hsub
    rw [h2, feed_accumulates proc part _ rfl (by simpa using hpart) (by simp only; omega)
      (by simp only [Nat.zero_add]; omega)
      (fun p hp => by
        have := hall p (hsub p hp)
        simpa only [elapsedMs_mod] using this)]
    simp
  refine ⟨?_, ?_⟩
  · intro j hj
    rw [hacc (pl.take j) (by simp only [List.length_take]; omega)
      (fun p hp => List.mem_of_mem_take hp)]
  · rcases List.eq_nil_or_concat pl with hnil | ⟨init, x, hpl⟩
    · subst hnil
      simp at hlen
      omega
    · rw [List.concat_eq_append] at hpl
      subst hpl
      simp only [List.length_append, List.length_singleton] at hlen
      have hx := hall x (by simp)
      have hsplit : (0xBB, t0) :: (L, tL) :: (init ++ [x])
          = ((0xBB, t0) :: (L, tL) :: init) ++ [x] := by simp
      have hpre := hacc init (by omega) (fun p hp => by simp [hp])
      have hfinal : (feed proc s ((0xBB, t0) :: (L, tL) :: (init ++ [x]))).st
          = (bno055SerialDataReceive proc x.2 x.1
              (feed proc s ((0xBB, t0) :: (L, tL) :: init)).st).st := by
        rw [hsplit, feed_append_st]
        rfl
      rw [hfinal, hpre]
      have hlast := receive_last_payload_byte proc
        { s with bno055FrameStartAtMs := t0 % 4294967296
                 bno055ProtocolState := BNO055_RECEIVE_LENGTH
                 bno055FrameType := BNO055_FRAME_DATA
                 bno055FrameLength := L
                 receiveBuffer := init.map Prod.fst ++ s.receiveBuffer.drop init.length
                 bno055FrameIndex := init.length } x.2 x.1 rfl
        (by simpa only [elapsedMs_mod] using hx.2)
        (by simp only; rw [hlen]; exact hLmod)
      refine ⟨hlast.1, ?_⟩
      rw [hlast.2]
      simp only [Nat.mod_eq_of_lt hx.1]
      rw [List.set_append_right _ _ (by simp)]
      have hdrop : s.receiveBuffer.drop init.length
          = s.receiveBuffer[init.length] :: s.receiveBuffer.drop (init.length + 1) :=
        List.drop_eq_getElem_cons (by omega)
      rw [hdrop]
      simp only [List.length_map, Nat.sub_self, List.set_cons_zero, List.map_append,
        List.map_cons, List.map_nil, List.append_assoc, List.singleton_append, ← hlen]

/-- The theorem `data_frame_fills_buffer` on a frame of three payload bytes
`0xEE, 0xBB, 0x07`. -/
theorem data_frame_fills_buffer_witness :
    (feed id initialState [(0xBB, 0), (3, 1), (0xEE, 2), (0xBB, 3)]).st.bno055ProtocolState
        = BNO055_RECEIVE_LENGTH ∧
      (feed id initialState
          [(0xBB, 0), (3, 1), (0xEE, 2), (0xBB, 3), (0x07, 4)]).st.bno055ProtocolState
        = BNO055_RECEIVE_IDLE ∧
      (feed id initialState
          [(0xBB, 0), (3, 1), (0xEE, 2), (0xBB, 3), (0x07, 4)]).st.receiveBuffer
        = [0xEE, 0xBB, 0x07, 0, 0, 0, 0, 0, 0, 0, 0, 0, 0, 0, 0, 0] :=
  have h := data_frame_fills_buffer id initialState 3 0 1
    [(0xEE, 2), (0xBB, 3), (0x07, 4)] rfl rfl (by decide) (by decide) rfl (by decide)
    (by decide)
  ⟨h.1 2 (by decide), h.2.1, h.2.2⟩

/-! ## The expected data type after a completed frame -/

/-- The write indices of a concatenation are those of the first part followed by
those of the second. -/
theorem feed_append_writes (proc : secondaryImuState_t → secondaryImuState_t)
    (a b : List (Nat × Nat)) :
    ∀ s : Bno055, (feed proc s (a ++ b)).writes
      = (feed proc s a).writes ++ (feed proc (feed proc s a).st b).writes := by
  induction a with
  | nil => intro s; simp [feed]
  | cons p rest ih =>
    intro s
    obtain ⟨c, now⟩ := p
    rw [List.cons_append]
    simp only [feed]
    rw [ih]
    simp only [List.append_assoc]

/-- A byte received while accumulating, without timeout, is stored at the frame
index. -/
theorem receive_payload_wrote
    (proc : secondaryImuState_t → secondaryImuState_t) (s : Bno055) (now c : Nat)
    (hstate : s.bno055ProtocolState = BNO055_RECEIVE_LENGTH)
    (hfresh : elapsedMs now s.bno055FrameStartAtMs ≤ BNO055_FRAME_MAX_TIME_MS) :
    (bno055SerialDataReceive proc now c s).wrote = some s.bno055FrameIndex := by
  obtain ⟨buf, st, ft, len, idx, start, dt, imu⟩ := s
  simp only at hstate hfresh
  subst hstate
  have hlate : ¬ 10 < elapsedMs now start := by
    simp only [BNO055_FRAME_MAX_TIME_MS] at hfresh; omega
  by_cases hlast : (idx + 1) % 256 = len <;> cases dt <;>
    simp [bno055SerialDataReceive, hlast, hlate, BNO055_FRAME_MAX_TIME_MS]

/-- While the bytes received do not complete the frame, they are stored at the
consecutive indices from the frame index on. -/
theorem feed_accumulates_writes (proc : secondaryImuState_t → secondaryImuState_t)
    (pl : List (Nat × Nat)) :
    ∀ s : Bno055, s.bno055ProtocolState = BNO055_RECEIVE_LENGTH →
      s.bno055FrameIndex + pl.length < s.bno055FrameLength →
      s.bno055FrameLength ≤ 256 →
      (∀ p ∈ pl, p.1 < 256 ∧ elapsedMs p.2 s.bno055FrameStartAtMs ≤ BNO055_FRAME_MAX_TIME_MS) →
      (feed proc s pl).writes = List.range' s.bno055FrameIndex pl.length := by
  induction pl with
  | nil => intro s _ _ _ _; simp [feed]
  | cons p rest ih =>
    intro s hstate hlt h256 hall
    obtain ⟨c, now⟩ := p
    simp only [List.length_cons] at hlt
    have hp := hall (c, now) (List.mem_cons_self _ _)
    have hidx : (s.bno055FrameIndex + 1) % 256 = s.bno055FrameIndex + 1 :=
      Nat.mod_eq_of_lt (by omega)
    have hstep := receive_payload_byte proc s now c hstate hp.2 (by rw [hidx]; omega)
    have hih := ih (bno055SerialDataReceive proc now c s).st
      (by rw [hstep]; exact hstate)
      (by rw [hstep]; simp only [hidx]; omega)
      (by rw [hstep]; exact h256)
      (fun q hq => by rw [hstep]; exact hall q (List.mem_cons_of_mem _ hq))
    simp only [feed]
    rw [hih, hstep]
    simp [hidx, List.range'_succ]

/-- A frame `0xBB, L, p0, ..., p(L-1)` with `1 <= L <= 16`, received from idle
without timeout, is stored at the indices `0, ..., L - 1`. -/
theorem data_frame_writes
    (proc : secondaryImuState_t → secondaryImuState_t) (s : Bno055) (L t0 tL : Nat)
    (pl : List (Nat × Nat))
    (hidle : s.bno055ProtocolState = BNO055_RECEIVE_IDLE)
    (hbuf : s.receiveBuffer.length = RECEIVE_BUFFER_SIZE)
    (hL1 : 1 ≤ L) (hL16 : L ≤ RECEIVE_BUFFER_SIZE) (hlen : pl.length = L)
    (htL : elapsedMs tL t0 ≤ BNO055_FRAME_MAX_TIME_MS)
    (hall : ∀ p ∈ pl, p.1 < 256 ∧ elapsedMs p.2 t0 ≤ BNO055_FRAME_MAX_TIME_MS) :
    (feed proc s ((0xBB, t0) :: (L, tL) :: pl)).writes = List.range L := by
  simp only [RECEIVE_BUFFER_SIZE] at hL16 hbuf
  have hLmod : L % 256 = L := Nat.mod_eq_of_lt (by omega)
  have hlateL : ¬ 10 < elapsedMs tL t0 := by
    simp only [BNO055_FRAME_MAX_TIME_MS] at htL; omega
  have h2 : ∀ rest : List (Nat × Nat),
      feed proc s ((0xBB, t0) :: (L, tL) :: rest)
        = feed proc
            { s with bno055FrameStartAtMs := t0 % 4294967296
                     bno055ProtocolState := BNO055_RECEIVE_LENGTH
                     bno055FrameType := BNO055_FRAME_DATA
                     bno055FrameLength := L
                     bno055FrameIndex := 0 } rest := by
    intro rest
    simp [feed, bno055SerialDataReceive, hidle, hLmod, hlateL, elapsedMs_mod,
      BNO055_FRAME_MAX_TIME_MS]
  rcases List.eq_nil_or_concat pl with hnil | ⟨init, x, hpl⟩
  · subst hnil
    simp at hlen
    omega
  · rw [List.concat_eq_append] at hpl
    subst hpl
    simp only [List.length_append, List.length_singleton] at hlen
    have hx := hall x (by simp)
    have hinit : ∀ p ∈ init, p.1 < 256 ∧
        elapsedMs p.2 (t0 % 4294967296) ≤ BNO055_FRAME_MAX_TIME_MS := by
      intro p hp
      have := hall p (by simp [hp])
      simpa only [elapsedMs_mod] using this
    rw [h2, feed_append_writes,
      feed_accumulates_writes proc init _ rfl (by simp only [Nat.zero_add]; omega)
        (by simp only; omega) hinit,
      feed_accumulates proc init _ rfl (by simp only [Nat.zero_add]; omega)
        (by simp only; omega) (by simp only [Nat.zero_add]; omega) hinit]
    simp only [feed]
    rw [receive_payload_wrote proc _ x.2 x.1 rfl
      (by simpa only [elapsedMs_mod] using hx.2)]
    simp only [Nat.zero_add, Option.toList, List.append_nil, ← hlen, List.range_succ,
      List.range_eq_range']

/-- C10. When a call of the handler completes a DATA frame (the machine
accumulates payload, the frame has not timed out, the incremented index equals
the frame length) and stores the completing byte inside the 16-cell buffer,
the expected data type afterwards is NONE and the machine is idle, whatever
the type was before. Consequently, with no new request in between: every
sequence of received bytes whose stores all stay inside the buffer leaves
`secondaryImuState` (raw Euler angles and calibration status) unchanged and
calls no fusion step; and a further complete DATA frame `0xBB, L, p0, ...,
p(L-1)` with `1 <= L <= 16`, received without timeout, is such a sequence: its
stores are at the indices below `L`, it returns the machine to idle, leaves
`secondaryImuState` unchanged and calls no fusion step. -/
theorem data_frame_completion_clears_expected_type
    (proc : secondaryImuState_t → secondaryImuState_t) (s : Bno055) (now c : Nat)
    (hstate : s.bno055ProtocolState = BNO055_RECEIVE_LENGTH)
    (hfresh : elapsedMs now s.bno055FrameStartAtMs ≤ BNO055_FRAME_MAX_TIME_MS)
    (hlast : (s.bno055FrameIndex + 1) % 256 = s.bno055FrameLength)
    (hbuf : s.receiveBuffer.length = RECEIVE_BUFFER_SIZE)
    (hstore : s.bno055FrameIndex < RECEIVE_BUFFER_SIZE) :
    (bno055SerialDataReceive proc now c s).wrote = some s.bno055FrameIndex ∧
      (bno055SerialDataReceive proc now c s).st.bno055DataType = BNO055_DATA_TYPE_NONE ∧
      (bno055SerialDataReceive proc now c s).st.bno055ProtocolState = BNO055_RECEIVE_IDLE ∧
      (∀ rx : List (Nat × Nat),
        (∀ i ∈ (feed proc (bno055SerialDataReceive proc now c s).st rx).writes,
          i < RECEIVE_BUFFER_SIZE) →
        (feed proc (bno055SerialDataReceive proc now c s).st rx).st.secondaryImuState
            = (bno055SerialDataReceive proc now c s).st.secondaryImuState ∧
          (feed proc (bno055SerialDataReceive proc now c s).st rx).processCalls = 0) ∧
      (∀ (L t0 tL : Nat) (pl : List (Nat × Nat)),
        1 ≤ L → L ≤ RECEIVE_BUFFER_SIZE → pl.length = L →
        elapsedMs tL t0 ≤ BNO055_FRAME_MAX_TIME_MS →
        (∀ p ∈ pl, p.1 < 256 ∧ elapsedMs p.2 t0 ≤ BNO055_FRAME_MAX_TIME_MS) →
        (feed proc (bno055SerialDataReceive proc now c s).st
            ((0xBB, t0) :: (L, tL) :: pl)).writes = List.range L ∧
          (∀ i ∈ (feed proc (bno055SerialDataReceive proc now c s).st
              ((0xBB, t0) :: (L, tL) :: pl)).writes, i < RECEIVE_BUFFER_SIZE) ∧
          (feed proc (bno055SerialDataReceive proc now c s).st
            ((0xBB, t0) :: (L, tL) :: pl)).st.bno055ProtocolState = BNO055_RECEIVE_IDLE ∧
          (feed proc (bno055SerialDataReceive proc now c s).st
            ((0xBB, t0) :: (L, tL) :: pl)).st.secondaryImuState
            = (bno055SerialDataReceive proc now c s).st.secondaryImuState ∧
          (feed proc (bno055SerialDataReceive proc now c s).st
            ((0xBB, t0) :: (L, tL) :: pl)).processCalls = 0) := by
  have hfresh2 : ¬ 10 < elapsedMs now s.bno055FrameStartAtMs := by
    simp only [BNO055_FRAME_MAX_TIME_MS] at hfresh; omega
  have hwrote := receive_payload_wrote proc s now c hstate hfresh
  have hcomplete := receive_last_payload_byte proc s now c hstate hfresh hlast
  have hidle := hcomplete.1
  have hbufr : (bno055SerialDataReceive proc now c s).st.receiveBuffer.length
      = RECEIVE_BUFFER_SIZE := by
    rw [hcomplete.2, List.length_set]
    exact hbuf
  have hnone : (bno055SerialDataReceive proc now c s).st.bno055DataType
      = BNO055_DATA_TYPE_NONE := by
    obtain ⟨buf, st, ft, len, idx, start, dt, imu⟩ := s
    simp only at hstate hlast hfresh2
    subst hstate
    cases dt <;>
      simp [bno055SerialDataReceive, hlast, hfresh2, BNO055_FRAME_MAX_TIME_MS]
  have hin : s.bno055FrameIndex < RECEIVE_BUFFER_SIZE := hstore
  refine ⟨hwrote, hnone, hidle, fun rx _ => ?_, fun L t0 tL pl hL1 hL16 hlen htL hall => ?_⟩
  · have h := feed_inert_without_request proc rx _ hnone
    exact ⟨h.2.1, h.2.2⟩
  · have hw := data_frame_writes proc _ L t0 tL pl hidle hbufr hL1 hL16 hlen htL hall
    have hfill := data_frame_fills_buffer proc _ L t0 tL pl hidle hbufr hL1 hL16 hlen htL hall
    have h := feed_inert_without_request proc ((0xBB, t0) :: (L, tL) :: pl) _ hnone
    refine ⟨hw, ?_, hfill.2.1, h.2.1, h.2.2⟩
    intro i hi
    rw [hw, List.mem_range] at hi
    omega

/-- The theorem `data_frame_completion_clears_expected_type` on the last byte
of a one-byte calibration frame, followed by a second complete DATA frame with
no request in between: the calibration status stays the one of the first
frame. -/
theorem data_frame_completion_clears_expected_type_witness :
    (bno055SerialDataReceive id 1 0xE4
        { initialState with bno055ProtocolState := BNO055_RECEIVE_LENGTH
                            bno055FrameType := BNO055_FRAME_DATA
                            bno055FrameLength := 1
                            bno055DataType := BNO055_DATA_TYPE_CALIBRATION_STATS }
      ).st.bno055DataType = BNO055_DATA_TYPE_NONE ∧
    (feed id
        (bno055SerialDataReceive id 1 0xE4
          { initialState with bno055ProtocolState := BNO055_RECEIVE_LENGTH
                              bno055FrameType := BNO055_FRAME_DATA
                              bno055FrameLength := 1
                              bno055DataType := BNO055_DATA_TYPE_CALIBRATION_STATS }).st
        [(0xBB, 2), (1, 3), (0x1B, 4)]).writes = [0] ∧
    (feed id
        (bno055SerialDataReceive id 1 0xE4
          { initialState with bno055ProtocolState := BNO055_RECEIVE_LENGTH
                              bno055FrameType := BNO055_FRAME_DATA
                              bno055FrameLength := 1
                              bno055DataType := BNO055_DATA_TYPE_CALIBRATION_STATS }).st
        [(0xBB, 2), (1, 3), (0x1B, 4)]).st.secondaryImuState.calibrationStatus
      = { mag := 0, acc := 1, gyr := 2, sys := 3 } ∧
    (feed id
        (bno055SerialDataReceive id 1 0xE4
          { initialState with bno055ProtocolState := BNO055_RECEIVE_LENGTH
                              bno055FrameType := BNO055_FRAME_DATA
                              bno055FrameLength := 1
                              bno055DataType := BNO055_DATA_TYPE_CALIBRATION_STATS }).st
        [(0xBB, 2), (1, 3), (0x1B, 4)]).processCalls = 0 :=
  have h := data_frame_completion_clears_expected_type id
    { initialState with bno055ProtocolState := BNO055_RECEIVE_LENGTH
                        bno055FrameType := BNO055_FRAME_DATA
                        bno055FrameLength := 1
                        bno055DataType := BNO055_DATA_TYPE_CALIBRATION_STATS }
    1 0xE4 rfl (by decide) (by decide) rfl (by decide)
  have hrx := h.2.2.2.1 [(0xBB, 2), (1, 3), (0x1B, 4)] (by decide)
  have hframe := h.2.2.2.2 1 2 3 [(0x1B, 4)] (by decide) (by decide) rfl (by decide)
    (by decide)
  ⟨h.2.1, hframe.1, (congrArg secondaryImuState_t.calibrationStatus hrx.1).trans (by decide),
    hrx.2⟩

/-! ## The fusion step -/

/-- From an active, checked state whose counter is below 10, `n` invocations
leave the counter at `(k + n) % 10` and request the calibration status on the
invocations that bring the count to a multiple of 10. -/
theorem taskRun_active (b : Bool) (n : Nat) :
    ∀ k : Nat, k < 10 →
      taskRun b { secondaryImuChecked := true, active := true, tick := k } n
        = ({ secondaryImuChecked := true, active := true, tick := (k + n) % 10 },
           (List.range n).map (fun i => decide ((k + i + 1) % 10 = 0))) := by
  induction n with
  | zero => intro k hk; simp [taskRun, Nat.mod_eq_of_lt hk]
  | succ n ih =>
    intro k hk
    have hk256 : (k + 1) % 256 = k + 1 := Nat.mod_eq_of_lt (by omega)
    by_cases h10 : k + 1 = 10
    · have hk9 : k = 9 := by omega
      subst hk9
      simp only [taskRun, taskSecondaryImu]
      simp only [Bool.not_true, Bool.false_eq_true, if_false, if_true]
      rw [ih 0 (by norm_num)]
      simp only [List.range_succ_eq_map, List.map_cons, List.map_map]
      refine Prod.ext ?_ ?_
      · simp; omega
      · simp [Function.comp_def]
        intro a _
        omega
    · simp only [taskRun, taskSecondaryImu]
      simp only [Bool.not_true, Bool.false_eq_true, if_false, if_true, hk256, h10]
      rw [ih (k + 1) (by omega)]
      simp only [List.range_succ_eq_map, List.map_cons, List.map_map]
      refine Prod.ext ?_ ?_
      · simp; omega
      · simp [Function.comp_def]
        refine ⟨by omega, ?_⟩
        intro a _
        omega

/-- Among the first `n` invocations, `n / 10` have a number that is a multiple
of 10. -/
theorem count_multiples_of_ten (n : Nat) :
    ((List.range n).map (fun i => decide ((i + 1) % 10 = 0))).count true = n / 10 := by
  induction n with
  | zero => simp
  | succ n ih =>
    rw [List.range_succ, List.map_append, List.count_append, ih]
    by_cases h : (n + 1) % 10 = 0
    · simp [h]; omega
    · simp [h]; omega


/-- C18. From the initial statics, with an initialisation that succeeds (so that
every invocation is active), after `n` invocations of the task the tick counter
is `n % 10`, hence in `0..9`; invocation number `i` (counted from 1) requests the
calibration status exactly when `i` is a multiple of 10; and the number of
requests over the `n` invocations is `n / 10`. -/
theorem calibration_requested_every_tenth (n : Nat) :
    (taskRun true taskInitialState n).1.tick = n % 10 ∧
      (taskRun true taskInitialState n).1.tick < 10 ∧
      (taskRun true taskInitialState n).2
        = (List.range n).map (fun i => decide ((i + 1) % 10 = 0)) ∧
      (taskRun true taskInitialState n).2.count true = n / 10 := by
  have hrun : taskRun true taskInitialState n
      = ((taskRun true taskInitialState n).1,
         (List.range n).map (fun i => decide ((i + 1) % 10 = 0))) ∧
      (taskRun true taskInitialState n).1.tick = n % 10 := by
    cases n with
    | zero => simp [taskRun, taskInitialState]
    | succ n =>
      simp only [taskRun, taskSecondaryImu, taskInitialState]
      simp only [Bool.not_false, if_true]
      norm_num
      rw [taskRun_active true n 1 (by norm_num)]
      refine ⟨?_, by simp; omega⟩
      simp only [List.range_succ_eq_map, List.map_cons, List.map_map]
      simp [Function.comp_def]
      intro a _
      omega
  refine ⟨hrun.2, ?_, ?_, ?_⟩
  · rw [hrun.2]; omega
  · rw [hrun.1]
  · rw [hrun.1]; exact count_multiples_of_ten n

/-! ## The timeout boundary -/

/-- No time has elapsed at the frame start itself. -/
theorem elapsedMs_self (t : Nat) : elapsedMs t t = 0 := by
  unfold elapsedMs
  have : t % 4294967296 < 4294967296 := Nat.mod_lt _ (by norm_num)
  omega

/-- The elapsed time across a wrap of the 32-bit clock is the true elapsed
time. -/
theorem elapsedMs_wrap (start d : Nat) (hd : d < 4294967296) :
    elapsedMs ((start + d) % 4294967296) start = d := by
  unfold elapsedMs
  omega

/-- The elapsed time is the difference of the two clock values modulo
`2 ^ 32`. -/
theorem elapsedMs_int (now start : Nat) :
    (elapsedMs now start : Int)
      = ((now : Int) - (start : Int)) % 4294967296 := by
  unfold elapsedMs
  omega

/-- A byte processed from idle writes nothing and leaves the machine idle or in
the header state. -/
theorem receive_from_idle_shape
    (proc : secondaryImuState_t → secondaryImuState_t) (s : Bno055) (now c : Nat)
    (hidle : s.bno055ProtocolState = BNO055_RECEIVE_IDLE) :
    (bno055SerialDataReceive proc now c s).wrote = none ∧
      ((bno055SerialDataReceive proc now c s).st.bno055ProtocolState = BNO055_RECEIVE_IDLE ∨
        (bno055SerialDataReceive proc now c s).st.bno055ProtocolState
          = BNO055_RECEIVE_HEADER) := by
  by_cases hEE : c % 256 = 0xEE <;> by_cases hBB : c % 256 = 0xBB <;>
    simp [bno055SerialDataReceive, hidle, hEE, hBB]

/-- A byte processed inside a frame that has not timed out is stored in the
buffer, or leaves the machine in a state other than idle and header. -/
theorem receive_in_frame_shape
    (proc : secondaryImuState_t → secondaryImuState_t) (s : Bno055) (now c : Nat)
    (hbusy : s.bno055ProtocolState ≠ BNO055_RECEIVE_IDLE)
    (hfresh : elapsedMs now s.bno055FrameStartAtMs ≤ BNO055_FRAME_MAX_TIME_MS) :
    (bno055SerialDataReceive proc now c s).wrote ≠ none ∨
      ((bno055SerialDataReceive proc now c s).st.bno055ProtocolState ≠ BNO055_RECEIVE_IDLE ∧
        (bno055SerialDataReceive proc now c s).st.bno055ProtocolState
          ≠ BNO055_RECEIVE_HEADER) := by
  obtain ⟨buf, st, ft, len, idx, start, dt, imu⟩ := s
  simp only at hbusy hfresh
  have hlate : ¬ 10 < elapsedMs now start := by
    simp only [BNO055_FRAME_MAX_TIME_MS] at hfresh; omega
  cases st
  · exact absurd rfl hbusy
  · cases ft <;> simp [bno055SerialDataReceive, BNO055_FRAME_MAX_TIME_MS, hlate]
  · left
    by_cases hlast : (idx + 1) % 256 = len <;> cases dt <;>
      simp [bno055SerialDataReceive, BNO055_FRAME_MAX_TIME_MS, hlate, hlast]
  · simp [bno055SerialDataReceive, BNO055_FRAME_MAX_TIME_MS, hlate]
  · simp [bno055SerialDataReceive, BNO055_FRAME_MAX_TIME_MS, hlate]

/-- C19. In a state that is not idle, the handler gives the result it would
give from idle if and only if the elapsed time, which is `now - start` modulo
`2 ^ 32`, is strictly above 10. With an elapsed time of at most 10, exactly 10
included, the byte is processed against the partial frame: the result is the
one the byte would give on arrival at the frame start time. When the clock
wraps between the frame start and the arrival, `d <= 10` milliseconds later, the
elapsed time is `d` and the byte is likewise processed against the partial
frame. -/
theorem timeout_boundary
    (proc : secondaryImuState_t → secondaryImuState_t) (s : Bno055) (now c d : Nat)
    (hbusy : s.bno055ProtocolState ≠ BNO055_RECEIVE_IDLE) :
    (bno055SerialDataReceive proc now c s
        = bno055SerialDataReceive proc now c
            { s with bno055ProtocolState := BNO055_RECEIVE_IDLE }
      ↔ BNO055_FRAME_MAX_TIME_MS < elapsedMs now s.bno055FrameStartAtMs) ∧
    ((elapsedMs now s.bno055FrameStartAtMs : Int)
      = ((now : Int) - (s.bno055FrameStartAtMs : Int)) % 4294967296) ∧
    (elapsedMs now s.bno055FrameStartAtMs ≤ BNO055_FRAME_MAX_TIME_MS →
      bno055SerialDataReceive proc now c s
        = bno055SerialDataReceive proc s.bno055FrameStartAtMs c s) ∧
    (d ≤ BNO055_FRAME_MAX_TIME_MS →
      elapsedMs ((s.bno055FrameStartAtMs + d) % 4294967296) s.bno055FrameStartAtMs = d ∧
      bno055SerialDataReceive proc ((s.bno055FrameStartAtMs + d) % 4294967296) c s
        = bno055SerialDataReceive proc s.bno055FrameStartAtMs c s) := by
  have hsame : ∀ t : Nat, elapsedMs t s.bno055FrameStartAtMs ≤ BNO055_FRAME_MAX_TIME_MS →
      bno055SerialDataReceive proc t c s
        = bno055SerialDataReceive proc s.bno055FrameStartAtMs c s := by
    intro t ht
    have hlate : ¬ 10 < elapsedMs t s.bno055FrameStartAtMs := by
      simp only [BNO055_FRAME_MAX_TIME_MS] at ht; omega
    simp [bno055SerialDataReceive, hbusy, hlate, elapsedMs_self, BNO055_FRAME_MAX_TIME_MS]
  refine ⟨⟨?_, ?_⟩, elapsedMs_int _ _, hsame now, ?_⟩
  · intro heq
    by_contra hnot
    have hfresh : elapsedMs now s.bno055FrameStartAtMs ≤ BNO055_FRAME_MAX_TIME_MS := by omega
    have hR := receive_from_idle_shape proc
      { s with bno055ProtocolState := BNO055_RECEIVE_IDLE } now c rfl
    rw [← heq] at hR
    rcases receive_in_frame_shape proc s now c hbusy hfresh with h | h
    · exact h hR.1
    · rcases hR.2 with h2 | h2
      · exact h.1 h2
      · exact h.2 h2
  · intro hlate
    have hlate2 : 10 < elapsedMs now s.bno055FrameStartAtMs := hlate
    simp [bno055SerialDataReceive, hbusy, hlate2, BNO055_FRAME_MAX_TIME_MS]
  · intro hd
    have hd2 : d < 4294967296 := by simp only [BNO055_FRAME_MAX_TIME_MS] at hd; omega
    have hw := elapsedMs_wrap s.bno055FrameStartAtMs d hd2
    exact ⟨hw, hsame _ (by rw [hw]; exact hd)⟩

/-- The theorem `timeout_boundary` on a frame started at `2 ^ 32 - 6`, with a
byte that arrives 10 ms later, when the clock has wrapped to 4. -/
theorem timeout_boundary_witness :
    elapsedMs ((4294967290 + 10) % 4294967296) 4294967290 = 10 ∧
      bno055SerialDataReceive id ((4294967290 + 10) % 4294967296) 0x42
          { initialState with bno055ProtocolState := BNO055_RECEIVE_LENGTH
                              bno055FrameType := BNO055_FRAME_DATA
                              bno055FrameLength := 6
                              bno055FrameIndex := 2
                              bno055FrameStartAtMs := 4294967290 }
        = bno055SerialDataReceive id 4294967290 0x42
          { initialState with bno055ProtocolState := BNO055_RECEIVE_LENGTH
                              bno055FrameType := BNO055_FRAME_DATA
                              bno055FrameLength := 6
                              bno055FrameIndex := 2
                              bno055FrameStartAtMs := 4294967290 } :=
  (timeout_boundary id
    { initialState with bno055ProtocolState := BNO055_RECEIVE_LENGTH
                        bno055FrameType := BNO055_FRAME_DATA
                        bno055FrameLength := 6
                        bno055FrameIndex := 2
                        bno055FrameStartAtMs := 4294967290 }
    4 0x42 10 (by decide)).2.2.2 (by decide)

end Bno055Serial
